import Mathlib

/-!
Verification development for the LiveEngine trading repository.

The definitions below are a shallow embedding of the Python sources:

* `src/engine/broker.py`        — `MockBroker`, `KalshiBroker` (pricing, sizing,
  safety checks, local position bookkeeping, execution);
* `src/connectors/kalshi/nba_state_merger.py` — the NBA tick/scoreboard merger;
* `src/connectors/kalshi/nfl_state_merger.py` — the clock-driven NFL merger;
* `src/strategies/composite.py` and `src/engine/live_engine.py` — the composite
  strategy layer and the engine loop.

Python floats are modelled as rationals (ℚ), machine ints as ℤ, Python
`None`-able values as `Option`, raised exceptions as `Except`, and the
insertion-ordered position / market dictionaries as association lists.
Wall-clock readings (`datetime.now()`) and tick timestamps are modelled as
rationals supplied explicitly as inputs to the merge loops.
-/

/-! ### Python numeric helpers -/

/-- Floor of a rational as an integer, `⌊q⌋`.  `q.den` is positive, so
`Int.fdiv` of the numerator by the denominator is the mathematical floor. -/
def ratFloor (q : ℚ) : ℤ := Int.fdiv q.num q.den

/-- Python `int(x)`: truncation toward zero. -/
def pyInt (q : ℚ) : ℤ := if q < 0 then -(ratFloor (-q)) else ratFloor q

/-- Python `round(x)` (banker's rounding: round half to even). -/
def pyRound (q : ℚ) : ℤ :=
  let f := ratFloor q
  let r := q - (f : ℚ)
  if r < 1/2 then f
  else if 1/2 < r then f + 1
  else if 2 ∣ f then f else f + 1

/-- Python truthiness of an optional float (`if x:`): present and nonzero. -/
def truthyQ (o : Option ℚ) : Bool :=
  match o with
  | none => false
  | some x => x != 0

/-- `new if new is not None else old` — the field-patching idiom
`if tick.field is not None: m.field = tick.field`. -/
def patch {α : Type} (neww old : Option α) : Option α :=
  match neww with
  | some v => some v
  | none => old

/-- `mt.split("-")` on the underlying character list (structural recursion,
so that concrete runs evaluate): splitting an empty string gives `[""]`,
exactly like Python's `split`. -/
def split_on_hyphen : List Char → List (List Char)
  | [] => [[]]
  | c :: rest =>
    match split_on_hyphen rest with
    | [] => [[]]
    | grp :: grps =>
      if c = '-' then [] :: grp :: grps else (c :: grp) :: grps

/-- `mt.split("-")` as a list of strings. -/
def py_split_hyphen (mt : String) : List String :=
  (split_on_hyphen mt.data).map (fun l => String.mk l)

/-! ### Insertion-ordered dictionaries (Python `dict`) as association lists -/

/-- `d[k] = v` on an insertion-ordered dict: overwrite in place if the key is
present, otherwise append at the end. -/
def alistSet {α : Type} (l : List (String × α)) (k : String) (v : α) :
    List (String × α) :=
  if (l.lookup k).isSome then
    l.map (fun kv => if kv.1 == k then (k, v) else kv)
  else l ++ [(k, v)]

/-- `del d[k]` (also used for the no-op when the key is absent). -/
def alistDel {α : Type} (l : List (String × α)) (k : String) :
    List (String × α) :=
  l.filter (fun kv => !(kv.1 == k))

/-- `list(d.values())` of an insertion-ordered dict. -/
def alistValues {α : Type} (l : List (String × α)) : List α :=
  l.map Prod.snd

/-! ### `src/engine/broker.py` — data model -/

/-- `MAX_ORDER_VALUE_SAFETY_CAP = 1000.00` (USD). -/
def MAX_ORDER_VALUE_SAFETY_CAP : ℚ := 1000

/-- `TradeIntent` as the broker consumes it: `market_id`, `action`
("open" / "close" / ...), `position_size` in dollars, and the optional
explicit limit price read via `getattr(intent, 'price', None)`. -/
structure TradeIntent where
  market_id : String
  action : String
  position_size : ℚ
  price : Option ℚ := none
deriving Repr, DecidableEq

/-- The per-market fields of a state dict that `_get_limit_price` reads:
`market_id`, `price`, `yes_bid_prob`, `yes_ask_prob`. -/
structure StateMarket where
  market_id : String
  price : Option ℚ := none
  yes_bid_prob : Option ℚ := none
  yes_ask_prob : Option ℚ := none
deriving Repr, DecidableEq

/-- The slice of a state dict the broker reads: `state.get("markets") or []`. -/
structure BrokerState where
  markets : List StateMarket
deriving Repr, DecidableEq

/-- One entry of `KalshiBroker._positions` / `MockBroker._positions`:
`{"dollars_at_risk": float, "contracts": int}`. -/
structure Position where
  dollars_at_risk : ℚ
  contracts : ℤ
deriving Repr, DecidableEq

/-- The broker's local position bookkeeping (`self._positions`). -/
def Positions : Type := List (String × Position)

instance : DecidableEq Positions := by
  unfold Positions; infer_instance

/-- The order payload built by `KalshiBroker._build_order_payload`
(minus the random `client_order_id`). -/
structure OrderPayload where
  market_ticker : String
  side : String
  action : String
  price_cents : ℤ
  count : ℤ
deriving Repr, DecidableEq

/-- `OrderResult` (the `raw` audit payload is carried when available). -/
structure OrderResult where
  ok : Bool
  order_id : Option String := none
  error : Option String := none
  raw : Option OrderPayload := none
deriving Repr, DecidableEq

/-! ### `KalshiBroker` -/

/-- `KalshiBroker._get_limit_price`: scan `state["markets"]` for the first
entry with the requested `market_id`; for `"open"` take the ask, falling back
to the last price, falling back to the bid; otherwise (`"close"`) take the
bid, falling back to the last price.  Python truthiness: a field equal to
`None` *or* `0.0` falls through. -/
def get_limit_price (state : BrokerState) (market_id : String)
    (action : String) : Option ℚ :=
  match state.markets.find? (fun m => m.market_id == market_id) with
  | none => none
  | some m =>
    if action == "open" then
      if truthyQ m.yes_ask_prob then m.yes_ask_prob
      else if truthyQ m.price then m.price
      else if truthyQ m.yes_bid_prob then m.yes_bid_prob
      else none
    else
      if truthyQ m.yes_bid_prob then m.yes_bid_prob
      else if truthyQ m.price then m.price
      else none

/-- Step 1 of `_build_order_payload`: `getattr(intent, 'price', None)`,
falling back to `_get_limit_price` when the intent carries no explicit
limit price. -/
def effective_limit_price (intent : TradeIntent) (state : BrokerState) :
    Option ℚ :=
  match intent.price with
  | some p => some p
  | none => get_limit_price state intent.market_id intent.action

/-- `price_cents = max(1, min(99, int(round(limit_price * 100.0))))`. -/
def price_cents_of (lp : ℚ) : ℤ := max 1 (min 99 (pyRound (lp * 100)))

/-- Step 2 of `_build_order_payload`: contract count and API action.
For `"close"` the whole tracked position is sold (error when no position
with positive contracts is tracked); otherwise the dollar stake is divided
by the limit price, truncated, and clamped to `[1, max_contracts_per_order]`. -/
def resolve_contracts (max_contracts_per_order : ℤ) (positions : Positions)
    (intent : TradeIntent) (limit_price : ℚ) : Except String (ℤ × String) :=
  if intent.action == "close" then
    match positions.lookup intent.market_id with
    | none => .error ("No position found to close for " ++ intent.market_id)
    | some pos =>
      if pos.contracts ≤ 0 then
        .error ("No position found to close for " ++ intent.market_id)
      else .ok (pos.contracts, "sell")
  else
    let stake := intent.position_size
    let contracts := pyInt (stake / limit_price)
    .ok (max 1 (min contracts max_contracts_per_order), "buy")

/-- `KalshiBroker._build_order_payload`: price derivation and validation,
contract sizing, then the hard notional safety cap. -/
def build_order_payload (max_contracts_per_order : ℤ) (positions : Positions)
    (intent : TradeIntent) (state : BrokerState) :
    Except String OrderPayload :=
  match effective_limit_price intent state with
  | none => .error "Invalid price calculated: None"
  | some lp =>
    if lp ≤ 0 ∨ (99 : ℚ)/100 < lp then .error "Invalid price calculated"
    else
      let pc := price_cents_of lp
      match resolve_contracts max_contracts_per_order positions intent lp with
      | .error e => .error e
      | .ok (contracts, api_action) =>
        let notional : ℚ := (contracts : ℚ) * ((pc : ℚ) / 100)
        if MAX_ORDER_VALUE_SAFETY_CAP < notional then
          .error "SAFETY: Order exceeds Cap"
        else
          .ok { market_ticker := intent.market_id, side := "yes",
                action := api_action, price_cents := pc, count := contracts }

/-- `KalshiBroker._update_positions_local`: "open" accrues dollars at risk and
contracts; "close" deletes the whole entry; other actions touch nothing. -/
def update_positions_local (positions : Positions) (intent : TradeIntent)
    (executed_contracts : ℤ) (executed_price : ℚ) : Positions :=
  if intent.action == "open" then
    let pos := (positions.lookup intent.market_id).getD
      { dollars_at_risk := 0, contracts := 0 }
    alistSet positions intent.market_id
      { dollars_at_risk :=
          pos.dollars_at_risk + (executed_contracts : ℚ) * executed_price,
        contracts := pos.contracts + executed_contracts }
  else if intent.action == "close" then
    alistDel positions intent.market_id
  else positions

/-- The environment of one `KalshiBroker.execute` call: the outcome of the
venue's `get_balance` call (balance in cents, or a raised exception) and the
outcome of `place_order` (optional order id, or a raised exception). -/
structure ExecEnv where
  balance_resp : Except String ℤ
  submit_resp : Except String (Option String)

/-- `KalshiBroker` configuration and state. -/
structure KalshiBroker where
  dry_run : Bool := true
  max_contracts_per_order : ℤ := 5000
  positions : Positions := []

/-- Result of one `execute` call: the `OrderResult`, the broker's position
table afterwards, and whether `place_order` was actually invoked. -/
structure ExecOutcome where
  result : OrderResult
  positions : Positions
  submitted : Bool
deriving DecidableEq

/-- The live-mode balance check of `KalshiBroker.execute` (live buys only):
`some e` when the check blocks the order with error `e`, `none` otherwise. -/
def balance_blocked (env : ExecEnv) (b : KalshiBroker)
    (payload : OrderPayload) : Option String :=
  if !b.dry_run && payload.action == "buy" then
    match env.balance_resp with
    | .error e => some ("Balance check failed: " ++ e)
    | .ok balance_cents =>
      let cost_cents := payload.count * payload.price_cents
      if balance_cents < cost_cents + 500 then some "Insufficient funds"
      else none
  else none

/-- The EXECUTE section of `KalshiBroker.execute`: dry run records the fill
locally; live mode submits and updates local positions only on success. -/
def execute_submit (env : ExecEnv) (b : KalshiBroker) (intent : TradeIntent)
    (payload : OrderPayload) : ExecOutcome :=
  if b.dry_run then
    { result := { ok := true, order_id := some "dry", raw := some payload },
      positions := update_positions_local b.positions intent payload.count
        ((payload.price_cents : ℚ) / 100),
      submitted := false }
  else
    match env.submit_resp with
    | .ok oid =>
      { result := { ok := true, order_id := oid },
        positions := update_positions_local b.positions intent payload.count
          ((payload.price_cents : ℚ) / 100),
        submitted := true }
    | .error e =>
      { result := { ok := false, error := some e },
        positions := b.positions, submitted := true }

/-- `KalshiBroker.execute`: build the payload (any exception becomes a failed
result), run the live-mode balance check for buys, then either simulate
(dry run) or submit, updating local positions only on success. -/
def KalshiBroker.execute (env : ExecEnv) (b : KalshiBroker)
    (intent : TradeIntent) (state : BrokerState) : ExecOutcome :=
  match build_order_payload b.max_contracts_per_order b.positions intent state with
  | .error e =>
    { result := { ok := false, error := some e }, positions := b.positions,
      submitted := false }
  | .ok payload =>
    match balance_blocked env b payload with
    | some e =>
      { result := { ok := false, error := some e }, positions := b.positions,
        submitted := false }
    | none => execute_submit env b intent payload

/-! ### `MockBroker` -/

/-- `MockBroker` state: executed order count (`len(self.orders)`) and the
local position dict. -/
structure MockBroker where
  orders_count : ℕ := 0
  positions : Positions := []

/-- `MockBroker.execute`: estimate a price (`getattr(intent, 'price', 0.50)
or 0.50`), update positions ("open" accrues, "close" deletes), record the
order, and always succeed. -/
def MockBroker.execute (b : MockBroker) (intent : TradeIntent) :
    OrderResult × MockBroker :=
  let est_price : ℚ :=
    match intent.price with
    | some p => if p == 0 then 1/2 else p
    | none => 1/2
  let positions1 : Positions :=
    if intent.action == "open" then
      let pos := (b.positions.lookup intent.market_id).getD
        { dollars_at_risk := 0, contracts := 0 }
      alistSet b.positions intent.market_id
        { dollars_at_risk := pos.dollars_at_risk + intent.position_size,
          contracts := pos.contracts + pyInt (intent.position_size / est_price) }
    else if intent.action == "close" then
      alistDel b.positions intent.market_id
    else b.positions
  let mock_count : ℤ :=
    if 0 < est_price then pyInt (intent.position_size / est_price) else 0
  let mock_payload : OrderPayload :=
    { market_ticker := intent.market_id, side := "yes",
      action := if intent.action == "open" then "buy" else "sell",
      price_cents := pyInt (est_price * 100), count := mock_count }
  ({ ok := true, order_id := some "mock", raw := some mock_payload },
   { orders_count := b.orders_count + 1, positions := positions1 })


/-! ### `src/connectors/kalshi/nba_state_merger.py` — data model

The merger consumes two asynchronous sources (the Kalshi tick stream and the
scoreboard stream).  Its observable behaviour is a function of the interleaved
arrival order of the two kinds of items, which we model as a single list of
`NbaEvent`s processed sequentially: a `score` event is one iteration of the
`_scoreboard_worker` loop, a `tick` event is one iteration of the main
`async for raw_tick in tick_stream` loop.

One point of the source is crucial to the model: `NBAMoneylineMarket` is a
`TypedDict`, so at runtime every entry of `markets` is a plain `dict`.  The
tick loop nevertheless accesses entries with *attribute* syntax — the
update block `m.last_prob = tick.price_prob` … `m.status = tick.status`
(lines 146-157) and the side-inference read `m.team` (line 166).  A plain
dict supports neither, so each of these statements raises `AttributeError`
the moment it executes: the first *present* field of a tick aimed at an
existing entry raises inside the update block (before any assignment takes
effect), and once a scoreboard snapshot is present every tick that survives
the update block raises at the `m.team` read — before the `yield`.  The
exception escapes the `async for` body, the `finally` cancels the
scoreboard task, and the generator terminates.  We model the raised
exception as a `PyError` recorded in the merger state; once set, no further
event is processed.  Only the dict-literal constructions (initial seeding
and the new-market branch, lines 130-143) and the scoreboard worker use
well-defined dict/dataclass operations and cannot raise. -/

/-- `KalshiTick` of `nba_state_merger.py` (timestamps modelled as ℚ). -/
structure NbaTick where
  ts_iso : ℚ
  event_ticker : String := ""
  market_ticker : String
  price_prob : Option ℚ := none
  yes_bid_prob : Option ℚ := none
  yes_ask_prob : Option ℚ := none
  volume : Option ℚ := none
  open_interest : Option ℚ := none
  status : Option String := none
deriving Repr, DecidableEq

/-- One `NBAMoneylineMarket` entry as the NBA merger writes it: the keys
`market_id`, `last_prob`, `yes_bid_prob`, `yes_ask_prob`, `volume`,
`open_interest`, `status`, `team`, `side`. -/
structure NbaMarket where
  market_id : String
  last_prob : Option ℚ := none
  yes_bid_prob : Option ℚ := none
  yes_ask_prob : Option ℚ := none
  volume : Option ℚ := none
  open_interest : Option ℚ := none
  status : Option String := none
  team : Option String := none
  side : String := "unknown"
deriving Repr, DecidableEq

/-- `NBAScoreboardSnapshot` (the possession/bonus/foul/timeout context fields
and `extra`, which the merge logic never reads and only passes through, are
omitted). -/
structure NbaSnap where
  game_id : String
  home_team : String
  away_team : String
  score_home : ℤ
  score_away : ℤ
  quarter : ℤ
  time_remaining_minutes : ℚ
  time_remaining_quarter_seconds : ℚ
  status : String
  timestamp : ℚ
deriving Repr, DecidableEq

/-- The merged NBA state dict (`build_nba_state_dict` output; same field
subset as `NbaSnap` plus the market table). -/
structure NbaStateDict where
  timestamp : ℚ
  event_ticker : String
  game_id : String
  home_team : String
  away_team : String
  score_home : ℚ
  score_away : ℚ
  score_diff : ℚ
  quarter : ℤ
  time_remaining_minutes : ℚ
  time_remaining_quarter_seconds : ℚ
  markets : List NbaMarket
deriving Repr, DecidableEq

/-- `build_nba_state_dict` from `src/core/nba_models.py`. -/
def build_nba_state_dict (scoreboard : NbaSnap)
    (markets : List (String × NbaMarket)) (event_ticker : Option String)
    (ts_iso : Option ℚ) : NbaStateDict :=
  { timestamp := ts_iso.getD scoreboard.timestamp,
    event_ticker := event_ticker.getD "",
    game_id := scoreboard.game_id,
    home_team := scoreboard.home_team,
    away_team := scoreboard.away_team,
    score_home := (scoreboard.score_home : ℚ),
    score_away := (scoreboard.score_away : ℚ),
    score_diff := (scoreboard.score_home : ℚ) - (scoreboard.score_away : ℚ),
    quarter := scoreboard.quarter,
    time_remaining_minutes := scoreboard.time_remaining_minutes,
    time_remaining_quarter_seconds :=
      scoreboard.time_remaining_quarter_seconds,
    markets := alistValues markets }

/-- The `game_id`/`home_team`/`away_team` arguments of
`merge_nba_and_kalshi_streams`. -/
structure NbaMergeConfig where
  game_id : String
  home_team : String
  away_team : String
deriving Repr, DecidableEq

/-- Seeding of the market table from `initial_markets`. -/
def nba_seed_markets (initial_markets : List String) :
    List (String × NbaMarket) :=
  initial_markets.foldl
    (fun acc mt => alistSet acc mt { market_id := mt }) []

/-- A Python exception raised by the merge loop.  The only one the NBA tick
loop can raise is `AttributeError` — attribute access on a `TypedDict`
(i.e. plain `dict`) market entry; the payload names the attribute. -/
inductive PyError where
  | attributeError (attr : String)
deriving Repr, DecidableEq

/-- Merger-owned state: the latest scoreboard snapshot, the market table,
whether the scoreboard worker has stopped (after a FINAL status), and the
uncaught exception, if one has aborted the merge loop (after which nothing
further runs: the generator has terminated and the `finally` has cancelled
the scoreboard task). -/
structure NbaMergeSt where
  latest_score : Option NbaSnap := none
  markets : List (String × NbaMarket) := []
  score_done : Bool := false
  error : Option PyError := none
deriving Repr, DecidableEq

/-- One arrival processed by the NBA merger. -/
inductive NbaEvent where
  | tick (t : NbaTick)
  | score (s : NbaSnap)
deriving Repr, DecidableEq

/-- Classifier for NBA arrival events. -/
def is_score_event : NbaEvent → Bool
  | .score _ => true
  | .tick _ => false

/-- One iteration of `_scoreboard_worker`: drop snapshots for other games,
last-write-wins into `latest_score`, stop for good on a FINAL status. -/
def nba_handle_score (game_id : String) (st : NbaMergeSt) (s : NbaSnap) :
    NbaMergeSt :=
  if st.score_done then st
  else if s.game_id ≠ game_id then st
  else
    { st with
      latest_score := some s,
      score_done := s.status.toUpper.startsWith "FINAL" }

/-- A market discovered on the fly: entry built from the tick's fields.
This branch (lines 130-143) is a dict-literal construction — the one write
to `markets` in the tick loop that does **not** raise. -/
def nba_new_market (t : NbaTick) : NbaMarket :=
  { market_id := t.market_ticker,
    last_prob := t.price_prob,
    yes_bid_prob := t.yes_bid_prob,
    yes_ask_prob := t.yes_ask_prob,
    volume := t.volume,
    open_interest := t.open_interest,
    status := t.status,
    team := none, side := "unknown" }

/-- The update block for an existing entry (lines 146-157): each statement
`if tick.x is not None: m.x = tick.x` is an attribute assignment on a plain
dict, so the first *present* tick field raises `AttributeError` (naming the
assigned attribute) and every later statement never runs.  Returns the
raised error, or `none` when every tick field is absent and the block
falls through without executing any assignment. -/
def nba_update_attr_error (t : NbaTick) : Option PyError :=
  if t.price_prob.isSome then some (.attributeError "last_prob")
  else if t.yes_bid_prob.isSome then some (.attributeError "yes_bid_prob")
  else if t.yes_ask_prob.isSome then some (.attributeError "yes_ask_prob")
  else if t.volume.isSome then some (.attributeError "volume")
  else if t.open_interest.isSome then
    some (.attributeError "open_interest")
  else if t.status.isSome then some (.attributeError "status")
  else none

/-- One iteration of the main NBA tick loop, as it actually executes: skip
empty tickers; a first-seen market is built from the tick and stored; an
existing entry's update block raises at the first present field (leaving
the entry untouched); then `if latest_score is None: continue`; any tick
that gets past that check raises `AttributeError` at the `m.team` read of
line 166 (entries are dicts), *before* `build_nba_state_dict` and the
`yield` — so no state is ever emitted. -/
def nba_handle_tick (cfg : NbaMergeConfig) (st : NbaMergeSt) (t : NbaTick) :
    NbaMergeSt × List NbaStateDict :=
  if t.market_ticker = "" then (st, [])
  else
    match st.markets.lookup t.market_ticker with
    | none =>
      let markets1 := alistSet st.markets t.market_ticker (nba_new_market t)
      match st.latest_score with
      | none => ({ st with markets := markets1 }, [])
      | some _ =>
        ({ st with
           markets := markets1,
           error := some (.attributeError "team") }, [])
    | some _ =>
      match nba_update_attr_error t with
      | some e => ({ st with error := some e }, [])
      | none =>
        match st.latest_score with
        | none => (st, [])
        | some _ => ({ st with error := some (.attributeError "team") }, [])

/-- Dispatch one arrival.  Once the merge loop has raised, the generator is
dead and the scoreboard task cancelled: no event is processed any more. -/
def nba_step (cfg : NbaMergeConfig) (st : NbaMergeSt) :
    NbaEvent → NbaMergeSt × List NbaStateDict
  | e =>
    if st.error.isSome then (st, [])
    else
      match e with
      | .tick t => nba_handle_tick cfg st t
      | .score s => (nba_handle_score cfg.game_id st s, [])

/-- A whole NBA merger run over an interleaved arrival sequence: final state
and emitted states, in order. -/
def nba_run (cfg : NbaMergeConfig) (st : NbaMergeSt) :
    List NbaEvent → NbaMergeSt × List NbaStateDict
  | [] => (st, [])
  | e :: rest =>
    let p := nba_step cfg st e
    let q := nba_run cfg p.1 rest
    (q.1, p.2 ++ q.2)

/-! ### `src/connectors/kalshi/nfl_state_merger.py` — data model

The NFL merger is clock-driven: background tasks move both streams into
queues, and the main loop repeatedly (A) drains the score queue keeping only
the latest snapshot, (B) drains and processes every queued tick — emitting
immediately per tick when a snapshot is present — and (C) emits a heartbeat
stamped with the current wall clock when at least 1 second has passed since
`last_emit`.  One `NflIterIn` is the input of one such loop iteration: the
drained score items, the drained ticks (each paired with the
`datetime.now()` reading taken right after its emission), and the
`datetime.now()` reading of the heartbeat check.  The stream-end sentinels
and the 0.1 s throttle sleep only affect termination and scheduling, not the
emitted sequence, and are omitted. -/

/-- `KalshiTick` of `nfl_state_merger.py`. -/
structure NflTick where
  ts_iso : ℚ
  market_ticker : String
  price_prob : Option ℚ := none
  yes_bid_prob : Option ℚ := none
  yes_ask_prob : Option ℚ := none
  volume : Option ℚ := none
  open_interest : Option ℚ := none
  status : Option String := none
deriving Repr, DecidableEq

/-- One `NFLMoneylineMarket` entry (the `meta` dict, never read by the merge
logic, is omitted). -/
structure NflMarket where
  market_id : String
  event_ticker : String := ""
  type : String := "moneyline"
  price : Option ℚ := none
  yes_bid_prob : Option ℚ := none
  yes_ask_prob : Option ℚ := none
  volume : Option ℚ := none
  open_interest : Option ℚ := none
  status : Option String := none
  team : Option String := none
  side : String := "unknown"
  line : Option ℚ := none
deriving Repr, DecidableEq

/-- `NFLScoreboardSnapshot` (the `extra` raw-JSON dict is omitted). -/
structure NflSnap where
  game_id : String
  home_team : String
  away_team : String
  score_home : ℤ
  score_away : ℤ
  quarter : ℤ
  time_remaining_minutes : ℚ
  time_remaining_quarter_seconds : ℚ
  possession_team : Option String
  down : ℤ
  distance : ℤ
  yardline : ℤ
  status : String
  timestamp : ℚ
  last_play : Option String
deriving Repr, DecidableEq

/-- The merged `NFLGameState` dict. -/
structure NflStateDict where
  timestamp : ℚ
  event_ticker : String
  game_id : String
  home_team : String
  away_team : String
  score_home : ℤ
  score_away : ℤ
  score_diff : ℤ
  quarter : ℤ
  time_remaining_minutes : ℚ
  time_remaining_quarter_seconds : ℚ
  possession_team : Option String
  down : ℤ
  distance : ℤ
  yardline : ℤ
  is_redzone : Bool
  last_play_text : Option String
  markets : List NflMarket
deriving Repr, DecidableEq

/-- `build_nfl_state_dict` from `src/core/nfl_models.py` (note the Python
truthiness in `is_redzone`: a yardline of 0 short-circuits to `False`). -/
def build_nfl_state_dict (scoreboard : NflSnap)
    (markets : List (String × NflMarket)) (event_ticker : Option String)
    (ts_iso : Option ℚ) : NflStateDict :=
  { timestamp := ts_iso.getD scoreboard.timestamp,
    event_ticker := event_ticker.getD "",
    game_id := scoreboard.game_id,
    home_team := scoreboard.home_team,
    away_team := scoreboard.away_team,
    score_home := scoreboard.score_home,
    score_away := scoreboard.score_away,
    score_diff := scoreboard.score_home - scoreboard.score_away,
    quarter := scoreboard.quarter,
    time_remaining_minutes := scoreboard.time_remaining_minutes,
    time_remaining_quarter_seconds :=
      scoreboard.time_remaining_quarter_seconds,
    possession_team := scoreboard.possession_team,
    down := scoreboard.down,
    distance := scoreboard.distance,
    yardline := scoreboard.yardline,
    is_redzone :=
      if scoreboard.yardline = 0 then false
      else decide (80 ≤ scoreboard.yardline),
    last_play_text := scoreboard.last_play,
    markets := alistValues markets }

/-- The static arguments of `merge_nfl_and_kalshi_streams`. -/
structure NflMergeConfig where
  event_ticker : String
  game_id : String
  home_team : String
  away_team : String
deriving Repr, DecidableEq

/-- Seeding of the NFL market table from `initial_markets`. -/
def nfl_seed_markets (event_ticker : String) (initial_markets : List String) :
    List (String × NflMarket) :=
  initial_markets.foldl
    (fun acc mt =>
      alistSet acc mt { market_id := mt, event_ticker := event_ticker }) []

/-- NFL merger state: latest snapshot, market table, and `last_emit`. -/
structure NflMergeSt where
  latest_score : Option NflSnap := none
  markets : List (String × NflMarket) := []
  last_emit : ℚ
deriving Repr, DecidableEq

/-- One emitted NFL state.  `via_heartbeat` is a ghost flag recording which
loop branch produced the emission (false: the per-tick branch B; true: the
clock-driven branch C); it is not part of the emitted dict itself. -/
structure NflEmission where
  state : NflStateDict
  via_heartbeat : Bool
deriving Repr, DecidableEq

/-- Field-by-field update of an NFL market entry (lines 158-170). -/
def nfl_apply_tick (m : NflMarket) (t : NflTick) : NflMarket :=
  { m with
    price := patch t.price_prob m.price,
    yes_bid_prob := patch t.yes_bid_prob m.yes_bid_prob,
    yes_ask_prob := patch t.yes_ask_prob m.yes_ask_prob,
    volume := patch t.volume m.volume,
    open_interest := patch t.open_interest m.open_interest,
    status := patch t.status m.status }

/-- A market discovered on the fly (price fields start absent). -/
def nfl_new_market (event_ticker : String) (mt : String) : NflMarket :=
  { market_id := mt, event_ticker := event_ticker }

/-- Lazy side inference, identical logic to the NBA version but run on every
tick (lines 172-177), before the emission guard. -/
def nfl_infer_side (home_team away_team : String) (mt : String)
    (m : NflMarket) : NflMarket :=
  if m.team = none ∧ 2 ≤ (py_split_hyphen mt).length then
    let suffix := (py_split_hyphen mt).getLastD ""
    if suffix = home_team ∨ suffix = away_team then
      { m with
        team := some suffix,
        side := if suffix = home_team then "home" else "away" }
    else m
  else m

/-- Processing of one queued tick (loop B): fetch or create the entry
(lines 150-156), then — for a fresh entry too — apply the tick's present
fields (lines 158-170) and infer the side, and if a snapshot is present
emit immediately, stamped with the tick's own timestamp; `last_emit` is set
to the wall clock read just after. -/
def nfl_handle_tick (cfg : NflMergeConfig) (st : NflMergeSt) (t : NflTick)
    (wall : ℚ) : NflMergeSt × List NflEmission :=
  if t.market_ticker = "" then (st, [])
  else
    let m0 : NflMarket :=
      match st.markets.lookup t.market_ticker with
      | none => nfl_new_market cfg.event_ticker t.market_ticker
      | some m => m
    let m1 := nfl_apply_tick m0 t
    let m2 := nfl_infer_side cfg.home_team cfg.away_team t.market_ticker m1
    let markets2 := alistSet st.markets t.market_ticker m2
    match st.latest_score with
    | none => ({ st with markets := markets2 }, [])
    | some sc =>
      ({ st with markets := markets2, last_emit := wall },
       [⟨build_nfl_state_dict sc markets2 (some cfg.event_ticker)
          (some t.ts_iso), false⟩])

/-- All queued ticks of one iteration, in order. -/
def nfl_ticks_run (cfg : NflMergeConfig) (st : NflMergeSt) :
    List (NflTick × ℚ) → NflMergeSt × List NflEmission
  | [] => (st, [])
  | tw :: rest =>
    let p := nfl_handle_tick cfg st tw.1 tw.2
    let q := nfl_ticks_run cfg p.1 rest
    (q.1, p.2 ++ q.2)

/-- Input of one iteration of the clock-driven NFL main loop. -/
structure NflIterIn where
  score_items : List NflSnap
  tick_items : List (NflTick × ℚ)
  now : ℚ
deriving Repr, DecidableEq

/-- One iteration of the NFL main loop: (A) keep the last drained snapshot,
(B) process every queued tick, (C) heartbeat when `now - last_emit ≥ 1.0`
and a snapshot is present, stamped with `now`. -/
def nfl_iter (cfg : NflMergeConfig) (st : NflMergeSt) (it : NflIterIn) :
    NflMergeSt × List NflEmission :=
  let st1 : NflMergeSt :=
    match it.score_items.getLast? with
    | some s => { st with latest_score := some s }
    | none => st
  let p := nfl_ticks_run cfg st1 it.tick_items
  match p.1.latest_score with
  | some sc =>
    if p.1.last_emit + 1 ≤ it.now then
      ({ p.1 with last_emit := it.now },
       p.2 ++ [⟨build_nfl_state_dict sc p.1.markets (some cfg.event_ticker)
          (some it.now), true⟩])
    else (p.1, p.2)
  | none => (p.1, p.2)

/-- A whole NFL merger run over a sequence of loop iterations. -/
def nfl_run (cfg : NflMergeConfig) (st : NflMergeSt) :
    List NflIterIn → NflMergeSt × List NflEmission
  | [] => (st, [])
  | it :: rest =>
    let p := nfl_iter cfg st it
    let q := nfl_run cfg p.1 rest
    (q.1, p.2 ++ q.2)

/-- Timestamps of the emitted NFL states, in emission order. -/
def nfl_ems_ts (ems : List NflEmission) : List ℚ :=
  ems.map (fun e => e.state.timestamp)

/-- The wall-clock readings of one iteration, in the order they are taken:
one right after each queued tick, then the heartbeat-check reading. -/
def nfl_iter_stamps (it : NflIterIn) : List ℚ :=
  it.tick_items.map Prod.snd ++ [it.now]

/-- All wall-clock readings of a run, in order. -/
def nfl_stamps (its : List NflIterIn) : List ℚ :=
  (its.map nfl_iter_stamps).flatten

/-- Every queued tick carries as its own timestamp the wall-clock reading of
its processing (the tick was stamped at arrival). -/
def TicksStampedAtWall (its : List NflIterIn) : Prop :=
  ∀ it ∈ its, ∀ tw ∈ it.tick_items, (tw : NflTick × ℚ).1.ts_iso = tw.2

/-! ### `src/strategies/composite.py` and `src/engine/live_engine.py` -/

/-- A `TradeIntent` after `CompositeStrategy` attached `strategy_name` to it
(`setattr(intent, 'strategy_name', strat.__class__.__name__)`). -/
structure TaggedIntent where
  strategy_name : String
  intent : TradeIntent
deriving Repr, DecidableEq

/-- One member strategy of the composite: its class name and its `on_state`,
which either returns intents or raises (`Except.error`). -/
structure NamedStrategy (S Pf : Type) where
  name : String
  on_state : S → Pf → Except String (List TradeIntent)

/-- `CompositeStrategy.on_state`: evaluate the members in order and
concatenate their tagged intents.  There is no try/except in the loop body:
an exception from any member propagates out of the whole call, discarding
even the intents already collected from earlier members. -/
def composite_on_state {S Pf : Type} :
    List (NamedStrategy S Pf) → S → Pf → Except String (List TaggedIntent)
  | [], _, _ => .ok []
  | strat :: rest, s, pf =>
    match strat.on_state s pf with
    | .error e => .error e
    | .ok intents =>
      match composite_on_state rest s pf with
      | .error e => .error e
      | .ok tail => .ok (intents.map (fun i => ⟨strat.name, i⟩) ++ tail)

/-- `LiveEngine.run`: for each state, take the portfolio view, call the
strategy — an exception is logged and the whole cycle is skipped
(`continue`) — otherwise forward every intent to the broker.  The broker is
abstract, as in the `Broker` protocol: `broker_view` is
`get_portfolio_view`, `broker_execute` is `execute` (whose own exceptions
are caught per intent and so cannot alter the control flow modelled here). -/
def live_engine_run {B S Pf : Type} (broker_view : B → Pf)
    (broker_execute : B → TaggedIntent → S → B)
    (on_state : S → Pf → Except String (List TaggedIntent)) (b : B) :
    List S → B
  | [] => b
  | s :: rest =>
    let b1 : B :=
      match on_state s (broker_view b) with
      | .error _ => b
      | .ok intents => intents.foldl (fun acc i => broker_execute acc i s) b
    live_engine_run broker_view broker_execute on_state b1 rest

/-- All quote fields of a market entry that are present are positive
(a probability-style quote of `0.0` means "no quote" to the Python code:
it is falsy, exactly like `None`). -/
def PositiveQuotes (m : StateMarket) : Prop :=
  (∀ x, m.price = some x → 0 < x) ∧
  (∀ x, m.yes_bid_prob = some x → 0 < x) ∧
  (∀ x, m.yes_ask_prob = some x → 0 < x)

/-! ### Basic lemmas about the helpers -/

theorem ratFloor_eq_floor (q : ℚ) : ratFloor q = ⌊q⌋ := by
  rw [Rat.floor_def, ratFloor, Int.fdiv_eq_ediv _ (Int.ofNat_nonneg q.den)]

theorem pyInt_eq_floor_of_nonneg {q : ℚ} (h : 0 ≤ q) : pyInt q = ⌊q⌋ := by
  rw [pyInt, if_neg (not_lt.mpr h), ratFloor_eq_floor]

theorem alistDel_lookup {α : Type} (l : List (String × α)) (k : String) :
    (alistDel l k).lookup k = none := by
  induction l with
  | nil => rfl
  | cons hd tl ih =>
    rw [alistDel, List.filter] at *
    cases h : hd.1 == k with
    | true => simpa using ih
    | false =>
      have h2 : (k == hd.1) = false := by
        rw [beq_eq_false_iff_ne] at h ⊢
        exact fun e => h e.symm
      cases hd with
      | mk k1 v1 => simp only [List.lookup, h2, Bool.not_false, ih]

/-- Any "close" intent targeting an instrument without a tracked positive
position makes `_build_order_payload` raise. -/
theorem build_order_payload_close_missing (max_contracts_per_order : ℤ)
    (positions : Positions) (intent : TradeIntent) (state : BrokerState)
    (hact : intent.action = "close")
    (hpos : positions.lookup intent.market_id = none ∨
      ∃ pos, positions.lookup intent.market_id = some pos ∧ pos.contracts ≤ 0) :
    ∃ e, build_order_payload max_contracts_per_order positions intent state =
      .error e := by
  have hres : ∀ lp, resolve_contracts max_contracts_per_order positions intent lp
      = .error ("No position found to close for " ++ intent.market_id) := by
    intro lp
    rw [resolve_contracts, hact]
    rcases hpos with h | ⟨pos, h, hc⟩
    · simp [h]
    · simp [h, hc]
  rw [build_order_payload]
  cases hlp : effective_limit_price intent state with
  | none => exact ⟨_, rfl⟩
  | some lp =>
    dsimp only
    by_cases hv : lp ≤ 0 ∨ (99 : ℚ)/100 < lp
    · rw [if_pos hv]; exact ⟨_, rfl⟩
    · rw [if_neg hv, hres lp]; exact ⟨_, rfl⟩

/-- A failed payload build short-circuits `execute`: failed result, untouched
positions, no submission. -/
theorem execute_of_build_error (env : ExecEnv) (b : KalshiBroker)
    (intent : TradeIntent) (state : BrokerState) (e : String)
    (hb : build_order_payload b.max_contracts_per_order b.positions intent state
      = .error e) :
    KalshiBroker.execute env b intent state =
      { result := { ok := false, error := some e }, positions := b.positions,
        submitted := false } := by
  rw [KalshiBroker.execute, hb]

/-- For a "close" intent, `_update_positions_local` deletes the whole entry. -/
theorem update_positions_local_close (positions : Positions)
    (intent : TradeIntent) (c : ℤ) (p : ℚ) (hact : intent.action = "close") :
    update_positions_local positions intent c p =
      alistDel positions intent.market_id := by
  unfold update_positions_local
  rw [hact]
  rfl

/-- `resolve_contracts` on a "close" intent with a tracked position sells the
whole tracked contract count. -/
theorem resolve_contracts_close (max_contracts_per_order : ℤ)
    (positions : Positions) (intent : TradeIntent) (lp : ℚ) (pos : Position)
    (hact : intent.action = "close")
    (hlook : positions.lookup intent.market_id = some pos) :
    resolve_contracts max_contracts_per_order positions intent lp =
      if pos.contracts ≤ 0 then
        .error ("No position found to close for " ++ intent.market_id)
      else .ok (pos.contracts, "sell") := by
  unfold resolve_contracts
  rw [hact, hlook]
  rfl

/-- `resolve_contracts` on an "open" intent: floor the stake by the price and
clamp. -/
theorem resolve_contracts_open (max_contracts_per_order : ℤ)
    (positions : Positions) (intent : TradeIntent) (lp : ℚ)
    (hact : intent.action = "open") :
    resolve_contracts max_contracts_per_order positions intent lp =
      .ok (max 1 (min (pyInt (intent.position_size / lp))
        max_contracts_per_order), "buy") := by
  unfold resolve_contracts
  rw [hact]
  rfl

/-! ### Claim C1 — safety cap -/

/-- Claim C1: for every `TradeIntent` whose computed notional (contract count
times the rounded cent price) exceeds the hard safety cap
`MAX_ORDER_VALUE_SAFETY_CAP`, `KalshiBroker.execute` returns an `OrderResult`
with `ok = false`, no order is submitted, and the broker's local position
bookkeeping is exactly the same after the call as before it. -/
theorem c1_safety_cap_blocks_execution (env : ExecEnv) (b : KalshiBroker)
    (intent : TradeIntent) (state : BrokerState) (lp : ℚ) (contracts : ℤ)
    (api_action : String)
    (hlp : effective_limit_price intent state = some lp)
    (hv : ¬(lp ≤ 0 ∨ (99 : ℚ)/100 < lp))
    (hres : resolve_contracts b.max_contracts_per_order b.positions intent lp
      = .ok (contracts, api_action))
    (hcap : MAX_ORDER_VALUE_SAFETY_CAP <
      (contracts : ℚ) * ((price_cents_of lp : ℚ) / 100)) :
    (KalshiBroker.execute env b intent state).result.ok = false ∧
    (KalshiBroker.execute env b intent state).submitted = false ∧
    (KalshiBroker.execute env b intent state).positions = b.positions := by
  have hb : build_order_payload b.max_contracts_per_order b.positions intent
      state = .error "SAFETY: Order exceeds Cap" := by
    rw [build_order_payload, hlp]
    dsimp only
    rw [if_neg hv, hres]
    dsimp only
    rw [if_pos hcap]
  rw [execute_of_build_error env b intent state _ hb]
  exact ⟨rfl, rfl, rfl⟩

/-- Witness for C1: a dry-run broker with default limits, an "open" intent for
5000 dollars with explicit limit price 0.50 (5000 contracts at 50 cents:
notional 2500 > 1000). -/
theorem c1_safety_cap_blocks_execution_witness :
    (KalshiBroker.execute ⟨.ok 0, .ok none⟩ {}
      ⟨"KXNBA-BOS", "open", 5000, some (1/2)⟩ ⟨[]⟩).result.ok = false ∧
    (KalshiBroker.execute ⟨.ok 0, .ok none⟩ {}
      ⟨"KXNBA-BOS", "open", 5000, some (1/2)⟩ ⟨[]⟩).submitted = false ∧
    (KalshiBroker.execute ⟨.ok 0, .ok none⟩ {}
      ⟨"KXNBA-BOS", "open", 5000, some (1/2)⟩ ⟨[]⟩).positions =
      ({} : KalshiBroker).positions :=
  c1_safety_cap_blocks_execution ⟨.ok 0, .ok none⟩ {}
    ⟨"KXNBA-BOS", "open", 5000, some (1/2)⟩ ⟨[]⟩ (1/2) 5000 "buy"
    rfl (by norm_num)
    (by rw [resolve_contracts_open _ _ _ _ rfl]
        norm_num [pyInt, ratFloor_eq_floor])
    (by norm_num [MAX_ORDER_VALUE_SAFETY_CAP, price_cents_of, pyRound,
          ratFloor_eq_floor])

/-! ### Claim C3 — close without a tracked position -/

/-- Claim C3: for every "close" `TradeIntent` whose `market_id` has no entry
(or an entry with non-positive contracts) in the broker's local position
table, `KalshiBroker.execute` returns an `OrderResult` with `ok = false` and
an error message, submits nothing to the venue, and leaves the position table
unchanged. -/
theorem c3_close_without_position_fails (env : ExecEnv) (b : KalshiBroker)
    (intent : TradeIntent) (state : BrokerState)
    (hact : intent.action = "close")
    (hpos : b.positions.lookup intent.market_id = none ∨
      ∃ pos, b.positions.lookup intent.market_id = some pos ∧
        pos.contracts ≤ 0) :
    (KalshiBroker.execute env b intent state).result.ok = false ∧
    (KalshiBroker.execute env b intent state).result.error.isSome = true ∧
    (KalshiBroker.execute env b intent state).submitted = false ∧
    (KalshiBroker.execute env b intent state).positions = b.positions := by
  obtain ⟨e, hb⟩ := build_order_payload_close_missing b.max_contracts_per_order
    b.positions intent state hact hpos
  rw [execute_of_build_error env b intent state e hb]
  exact ⟨rfl, rfl, rfl, rfl⟩

/-- Witness for C3: a broker with an empty position table receiving a "close"
intent. -/
theorem c3_close_without_position_fails_witness :
    (KalshiBroker.execute ⟨.ok 0, .ok none⟩ {}
      ⟨"KXNBA-BOS", "close", 10, none⟩ ⟨[]⟩).result.ok = false ∧
    (KalshiBroker.execute ⟨.ok 0, .ok none⟩ {}
      ⟨"KXNBA-BOS", "close", 10, none⟩ ⟨[]⟩).result.error.isSome = true ∧
    (KalshiBroker.execute ⟨.ok 0, .ok none⟩ {}
      ⟨"KXNBA-BOS", "close", 10, none⟩ ⟨[]⟩).submitted = false ∧
    (KalshiBroker.execute ⟨.ok 0, .ok none⟩ {}
      ⟨"KXNBA-BOS", "close", 10, none⟩ ⟨[]⟩).positions =
      ({} : KalshiBroker).positions :=
  c3_close_without_position_fails ⟨.ok 0, .ok none⟩ {}
    ⟨"KXNBA-BOS", "close", 10, none⟩ ⟨[]⟩ rfl (Or.inl rfl)

/-! ### Claim C5 — price derivation -/

/-- Claim C5: for every intent without an explicit limit price, the broker
derives the execution price from the named market's entry in the state (the
first entry whose `market_id` matches): for an "open" intent the ask, falling
back to the last traded price, falling back to the bid; for a "close" intent
the bid, falling back to the last traded price (never the ask); and for every
intent that does carry an explicit limit price, that price is used and the
derivation is skipped.  Present quote fields are assumed positive — the code
treats a `0.0` quote exactly like an absent one (Python truthiness). -/
theorem c5_price_fallback_chain :
    (∀ (intent : TradeIntent) (state : BrokerState) (p : ℚ),
      intent.price = some p → effective_limit_price intent state = some p) ∧
    (∀ (intent : TradeIntent) (state : BrokerState) (m : StateMarket),
      intent.price = none → intent.action = "open" →
      state.markets.find? (fun mm => mm.market_id == intent.market_id)
        = some m →
      PositiveQuotes m →
      effective_limit_price intent state =
        m.yes_ask_prob.or (m.price.or m.yes_bid_prob)) ∧
    (∀ (intent : TradeIntent) (state : BrokerState) (m : StateMarket),
      intent.price = none → intent.action = "close" →
      state.markets.find? (fun mm => mm.market_id == intent.market_id)
        = some m →
      PositiveQuotes m →
      effective_limit_price intent state = m.yes_bid_prob.or m.price) := by
  refine ⟨?_, ?_, ?_⟩
  · intro intent state p hp
    rw [effective_limit_price, hp]
  · rintro intent state m hp hact hfind ⟨hpp, hpb, hpa⟩
    rw [effective_limit_price, hp, get_limit_price, hfind]
    dsimp only
    rw [hact]
    cases ha : m.yes_ask_prob with
    | some a =>
      have hane : a ≠ 0 := (hpa a ha).ne'
      simp [truthyQ, ha, hane, Option.or]
    | none =>
      cases hpr : m.price with
      | some pr =>
        have hprne : pr ≠ 0 := (hpp pr hpr).ne'
        simp [truthyQ, ha, hpr, hprne, Option.or]
      | none =>
        cases hb : m.yes_bid_prob with
        | some bb =>
          have hbne : bb ≠ 0 := (hpb bb hb).ne'
          simp [truthyQ, ha, hpr, hb, hbne, Option.or]
        | none => simp [truthyQ, ha, hpr, hb, Option.or]
  · rintro intent state m hp hact hfind ⟨hpp, hpb, hpa⟩
    rw [effective_limit_price, hp, get_limit_price, hfind]
    dsimp only
    rw [hact]
    cases hb : m.yes_bid_prob with
    | some bb =>
      have hbne : bb ≠ 0 := (hpb bb hb).ne'
      simp [truthyQ, hb, hbne, Option.or]
    | none =>
      cases hpr : m.price with
      | some pr =>
        have hprne : pr ≠ 0 := (hpp pr hpr).ne'
        simp [truthyQ, hb, hpr, hprne, Option.or]
      | none => simp [truthyQ, hb, hpr, Option.or]

/-- Witness for C5: an "open" intent with no explicit price, a market with no
ask but a last price of 0.40 and a bid of 0.30: the derived price is 0.40
(last-price fallback). -/
theorem c5_price_fallback_chain_witness :
    effective_limit_price ⟨"KXNBA-BOS", "open", 10, none⟩
      ⟨[⟨"KXNBA-BOS", some (2/5), some (3/10), none⟩]⟩ =
      (Option.or (none : Option ℚ)
        (Option.or (some (2/5)) (some (3/10)))) :=
  c5_price_fallback_chain.2.1 ⟨"KXNBA-BOS", "open", 10, none⟩
    ⟨[⟨"KXNBA-BOS", some (2/5), some (3/10), none⟩]⟩
    ⟨"KXNBA-BOS", some (2/5), some (3/10), none⟩ rfl rfl (by simp)
    ⟨fun x h => by cases h; norm_num,
     fun x h => by cases h; norm_num,
     fun x h => by cases h⟩

/-! ### Claim C6 — open sizing -/

/-- Claim C6: for every "open" intent with positive currency size and a
derivable positive price, the contract count submitted equals
`floor(size / price)` clamped to at least 1 and at most the configured
per-order ceiling; in particular a simulated (dry-run) execution of a 25-unit
open intent at effective price 0.20 records `contracts = 125` and
`dollars_at_risk = 25` in the broker's position bookkeeping. -/
theorem c6_open_sizing_floor_clamp :
    (∀ (maxC : ℤ) (positions : Positions) (intent : TradeIntent)
       (state : BrokerState) (lp : ℚ) (payload : OrderPayload),
      intent.action = "open" → 0 < intent.position_size →
      effective_limit_price intent state = some lp → 0 < lp →
      build_order_payload maxC positions intent state = .ok payload →
      payload.count = max 1 (min ⌊intent.position_size / lp⌋ maxC)) ∧
    ((KalshiBroker.execute ⟨.ok 0, .ok none⟩ {}
        ⟨"KXNBAGAME-BOS", "open", 25, none⟩
        ⟨[⟨"KXNBAGAME-BOS", none, none, some (1/5)⟩]⟩).result.ok = true ∧
     (KalshiBroker.execute ⟨.ok 0, .ok none⟩ {}
        ⟨"KXNBAGAME-BOS", "open", 25, none⟩
        ⟨[⟨"KXNBAGAME-BOS", none, none, some (1/5)⟩]⟩).positions =
       [("KXNBAGAME-BOS", { dollars_at_risk := 25, contracts := 125 })]) := by
  constructor
  · intro maxC positions intent state lp payload hact hsize hlp hpos hb
    rw [build_order_payload, hlp] at hb
    dsimp only at hb
    by_cases hv : lp ≤ 0 ∨ (99 : ℚ)/100 < lp
    · rw [if_pos hv] at hb
      exact Except.noConfusion hb
    · rw [if_neg hv, resolve_contracts_open maxC positions intent lp hact] at hb
      dsimp only at hb
      split at hb
      · exact Except.noConfusion hb
      · cases hb
        dsimp only
        rw [pyInt_eq_floor_of_nonneg (div_nonneg hsize.le hpos.le)]
  · have hb : build_order_payload (5000 : ℤ) ([] : Positions)
        ⟨"KXNBAGAME-BOS", "open", 25, none⟩
        ⟨[⟨"KXNBAGAME-BOS", none, none, some (1/5)⟩]⟩
        = .ok ⟨"KXNBAGAME-BOS", "yes", "buy", 20, 125⟩ := by
      norm_num [build_order_payload, effective_limit_price, get_limit_price,
        truthyQ, resolve_contracts, price_cents_of, pyRound, pyInt,
        ratFloor_eq_floor, MAX_ORDER_VALUE_SAFETY_CAP]
      rw [if_neg (show ¬("open" : String) = "close" by decide)]
      norm_num
    constructor
    · simp only [KalshiBroker.execute]
      rw [hb]
      norm_num [balance_blocked, execute_submit]
    · simp only [KalshiBroker.execute]
      rw [hb]
      norm_num [balance_blocked, execute_submit, update_positions_local,
        alistSet]

/-- `MockBroker.execute` on a "close" intent deletes the tracked entry. -/
theorem mock_execute_close_positions (b : MockBroker) (intent : TradeIntent)
    (hact : intent.action = "close") :
    (MockBroker.execute b intent).2.positions =
      alistDel b.positions intent.market_id := by
  unfold MockBroker.execute
  rw [hact]
  rfl

/-! ### Claim C10 — close liquidates the whole tracked position -/

/-- Claim C10: for every successful execution of a "close" intent (dry-run or
live), the broker deletes the instrument's entire position entry from its
local bookkeeping; the contract count submitted is the previously tracked
count (independent of the intent's `position_size` and limit price), and the
next portfolio view shows no position for that instrument.  The same full
deletion holds for `MockBroker`. -/
theorem c10_close_deletes_entry :
    (∀ (env : ExecEnv) (b : KalshiBroker) (intent : TradeIntent)
       (state : BrokerState),
      intent.action = "close" →
      (KalshiBroker.execute env b intent state).result.ok = true →
      ((KalshiBroker.execute env b intent state).positions.lookup
        intent.market_id = none)) ∧
    (∀ (maxC : ℤ) (positions : Positions) (intent : TradeIntent)
       (state : BrokerState) (pos : Position) (payload : OrderPayload),
      intent.action = "close" →
      positions.lookup intent.market_id = some pos →
      build_order_payload maxC positions intent state = .ok payload →
      payload.count = pos.contracts) ∧
    (∀ (b : MockBroker) (intent : TradeIntent),
      intent.action = "close" →
      (MockBroker.execute b intent).1.ok = true ∧
      ((MockBroker.execute b intent).2.positions.lookup intent.market_id
        = none)) := by
  refine ⟨?_, ?_, ?_⟩
  · intro env b intent state hact hok
    cases hb : build_order_payload b.max_contracts_per_order b.positions
        intent state with
    | error e =>
      rw [execute_of_build_error env b intent state e hb] at hok
      exact Bool.noConfusion hok
    | ok payload =>
      rw [KalshiBroker.execute, hb] at hok ⊢
      dsimp only at hok ⊢
      cases hbb : balance_blocked env b payload with
      | some e =>
        rw [hbb] at hok
        exact Bool.noConfusion hok
      | none =>
        rw [hbb] at hok
        dsimp only at hok ⊢
        rw [execute_submit] at hok ⊢
        by_cases hd : b.dry_run = true
        · rw [if_pos hd] at hok ⊢
          dsimp only
          rw [update_positions_local_close b.positions intent _ _ hact]
          exact alistDel_lookup b.positions intent.market_id
        · rw [if_neg hd] at hok ⊢
          cases hs : env.submit_resp with
          | ok oid =>
            dsimp only
            rw [update_positions_local_close b.positions intent _ _ hact]
            exact alistDel_lookup b.positions intent.market_id
          | error e =>
            rw [hs] at hok
            exact Bool.noConfusion hok
  · intro maxC positions intent state pos payload hact hlook hb
    rw [build_order_payload] at hb
    cases hlp : effective_limit_price intent state with
    | none =>
      rw [hlp] at hb
      exact Except.noConfusion hb
    | some lp =>
      rw [hlp] at hb
      dsimp only at hb
      by_cases hv : lp ≤ 0 ∨ (99 : ℚ)/100 < lp
      · rw [if_pos hv] at hb
        exact Except.noConfusion hb
      · rw [if_neg hv,
          resolve_contracts_close maxC positions intent lp pos hact hlook] at hb
        by_cases hc : pos.contracts ≤ 0
        · rw [if_pos hc] at hb
          dsimp only at hb
          exact Except.noConfusion hb
        · rw [if_neg hc] at hb
          dsimp only at hb
          split at hb
          · exact Except.noConfusion hb
          · cases hb
            rfl
  · intro b intent hact
    refine ⟨rfl, ?_⟩
    rw [mock_execute_close_positions b intent hact]
    exact alistDel_lookup b.positions intent.market_id

/-- Witness for C10: a dry-run broker tracking 125 contracts on one market
closes it; afterwards the portfolio view has no entry for that market, and
the submitted count was 125. -/
theorem c10_close_deletes_entry_witness :
    ((KalshiBroker.execute ⟨.ok 0, .ok none⟩
      { positions := [("KXNBAGAME-BOS", ⟨25, 125⟩)] }
      ⟨"KXNBAGAME-BOS", "close", 7, some (1/2)⟩ ⟨[]⟩).positions.lookup
        "KXNBAGAME-BOS" = none) ∧
    ((MockBroker.execute { positions := [("KXNBAGAME-BOS", ⟨25, 125⟩)] }
      ⟨"KXNBAGAME-BOS", "close", 7, none⟩).2.positions.lookup
        "KXNBAGAME-BOS" = none) := by
  constructor
  · exact c10_close_deletes_entry.1 ⟨.ok 0, .ok none⟩
      { positions := [("KXNBAGAME-BOS", ⟨25, 125⟩)] }
      ⟨"KXNBAGAME-BOS", "close", 7, some (1/2)⟩ ⟨[]⟩ rfl
      (by norm_num [KalshiBroker.execute, build_order_payload,
        effective_limit_price, resolve_contracts, price_cents_of, pyRound,
        ratFloor_eq_floor, MAX_ORDER_VALUE_SAFETY_CAP, balance_blocked,
        execute_submit, update_positions_local, alistDel, List.lookup])
  · exact (c10_close_deletes_entry.2.2
      { positions := [("KXNBAGAME-BOS", ⟨25, 125⟩)] }
      ⟨"KXNBAGAME-BOS", "close", 7, none⟩ rfl).2

/-- Witness for C6: sizing a 25-dollar open intent at derived price 0.20 with
the default 5000-contract ceiling yields a count of 125. -/
theorem c6_open_sizing_floor_clamp_witness :
    (⟨"KXNBAGAME-BOS", "yes", "buy", 20, 125⟩ : OrderPayload).count =
      max 1 (min ⌊(25 : ℚ) / (1/5)⌋ 5000) :=
  c6_open_sizing_floor_clamp.1 5000 [] ⟨"KXNBAGAME-BOS", "open", 25, none⟩
    ⟨[⟨"KXNBAGAME-BOS", none, none, some (1/5)⟩]⟩ (1/5)
    ⟨"KXNBAGAME-BOS", "yes", "buy", 20, 125⟩ rfl (by norm_num)
    (by norm_num [effective_limit_price, get_limit_price, truthyQ])
    (by norm_num)
    (by norm_num [build_order_payload, effective_limit_price, get_limit_price,
          truthyQ, resolve_contracts, price_cents_of, pyRound, pyInt,
          ratFloor_eq_floor, MAX_ORDER_VALUE_SAFETY_CAP]
        rw [if_neg (show ¬("open" : String) = "close" by decide)]
        norm_num)

/-! ### Merger lemmas -/

/-- No branch of one processed NBA arrival emits anything: a tick either
updates the table silently or raises before the `yield`, and the scoreboard
worker only stores the snapshot. -/
theorem nba_step_emits_nothing (cfg : NbaMergeConfig) (st : NbaMergeSt)
    (e : NbaEvent) : (nba_step cfg st e).2 = [] := by
  unfold nba_step
  split
  · rfl
  · cases e with
    | score s => rfl
    | tick t =>
      show (nba_handle_tick cfg st t).2 = []
      unfold nba_handle_tick
      split
      · rfl
      · split
        · dsimp only
          split <;> rfl
        · split
          · rfl
          · split <;> rfl

/-- The NBA merger never emits a single state, over any arrival sequence:
every path that reaches the `yield` has already raised `AttributeError` at
an attribute access on a dict market entry. -/
theorem nba_run_never_emits (cfg : NbaMergeConfig) (events : List NbaEvent) :
    ∀ st : NbaMergeSt, (nba_run cfg st events).2 = [] := by
  induction events with
  | nil => exact fun _ => rfl
  | cons e rest ih =>
    intro st
    show ((nba_step cfg st e).2 ++
      (nba_run cfg (nba_step cfg st e).1 rest).2) = []
    rw [nba_step_emits_nothing, ih]
    rfl

/-- NBA runs containing only scoreboard events emit nothing (a special case
of never emitting at all). -/
theorem nba_run_scores_only (cfg : NbaMergeConfig) (events : List NbaEvent) :
    ∀ st : NbaMergeSt, (∀ e ∈ events, is_score_event e = true) →
    (nba_run cfg st events).2 = [] :=
  fun st _ => nba_run_never_emits cfg events st

/-- With no raised exception yet, a tick arrival dispatches to the tick
handler. -/
theorem nba_step_tick (cfg : NbaMergeConfig) (st : NbaMergeSt) (t : NbaTick)
    (herr : st.error = none) :
    nba_step cfg st (.tick t) = nba_handle_tick cfg st t := by
  unfold nba_step
  rw [herr]
  rfl

/-- With no snapshot yet, a queued NFL tick updates the table but emits
nothing and leaves `latest_score`/`last_emit` alone. -/
theorem nfl_handle_tick_no_score (cfg : NflMergeConfig) (st : NflMergeSt)
    (t : NflTick) (wall : ℚ) (h : st.latest_score = none) :
    (nfl_handle_tick cfg st t wall).2 = [] ∧
    (nfl_handle_tick cfg st t wall).1.latest_score = none ∧
    (nfl_handle_tick cfg st t wall).1.last_emit = st.last_emit := by
  unfold nfl_handle_tick
  by_cases ht : t.market_ticker = ""
  · rw [if_pos ht]
    exact ⟨rfl, h, rfl⟩
  · rw [if_neg ht]
    dsimp only
    rw [h]
    exact ⟨rfl, rfl, rfl⟩

/-- Score-free tick batches emit nothing. -/
theorem nfl_ticks_run_no_score (cfg : NflMergeConfig)
    (ticks : List (NflTick × ℚ)) :
    ∀ st : NflMergeSt, st.latest_score = none →
    (nfl_ticks_run cfg st ticks).2 = [] ∧
    (nfl_ticks_run cfg st ticks).1.latest_score = none ∧
    (nfl_ticks_run cfg st ticks).1.last_emit = st.last_emit := by
  induction ticks with
  | nil => exact fun st hst => ⟨rfl, hst, rfl⟩
  | cons tw rest ih =>
    intro st hst
    obtain ⟨h1, h2, h3⟩ := nfl_handle_tick_no_score cfg st tw.1 tw.2 hst
    obtain ⟨i1, i2, i3⟩ := ih (nfl_handle_tick cfg st tw.1 tw.2).1 h2
    refine ⟨?_, i2, ?_⟩
    · show ((nfl_handle_tick cfg st tw.1 tw.2).2 ++
        (nfl_ticks_run cfg (nfl_handle_tick cfg st tw.1 tw.2).1 rest).2) = []
      rw [h1, i1]
      rfl
    · show (nfl_ticks_run cfg (nfl_handle_tick cfg st tw.1 tw.2).1 rest).1.last_emit
        = st.last_emit
      rw [i3, h3]

/-- An iteration that drains no snapshot and starts with none emits nothing
(not even a heartbeat). -/
theorem nfl_iter_no_score (cfg : NflMergeConfig) (st : NflMergeSt)
    (it : NflIterIn) (h : st.latest_score = none)
    (hsc : it.score_items = []) :
    (nfl_iter cfg st it).2 = [] ∧
    (nfl_iter cfg st it).1.latest_score = none := by
  unfold nfl_iter
  rw [hsc]
  obtain ⟨h1, h2, h3⟩ := nfl_ticks_run_no_score cfg it.tick_items st h
  dsimp only [List.getLast?]
  rw [h2]
  exact ⟨h1, h2⟩

/-- NFL runs that never see a snapshot emit nothing at all. -/
theorem nfl_run_no_score (cfg : NflMergeConfig) (its : List NflIterIn) :
    ∀ st : NflMergeSt, st.latest_score = none →
    (∀ it ∈ its, it.score_items = []) →
    (nfl_run cfg st its).2 = [] ∧
    (nfl_run cfg st its).1.latest_score = none := by
  induction its with
  | nil => exact fun st hst _ => ⟨rfl, hst⟩
  | cons it rest ih =>
    intro st hst hits
    obtain ⟨h1, h2⟩ := nfl_iter_no_score cfg st it hst
      (hits _ (List.mem_cons_self _ _))
    obtain ⟨i1, i2⟩ := ih (nfl_iter cfg st it).1 h2
      (fun x hx => hits x (List.mem_cons_of_mem _ hx))
    refine ⟨?_, i2⟩
    show ((nfl_iter cfg st it).2 ++ (nfl_run cfg (nfl_iter cfg st it).1 rest).2)
      = []
    rw [h1, i1]
    rfl

/-- `nfl_run` over an appended iteration sequence. -/
theorem nfl_run_append (cfg : NflMergeConfig) (xs ys : List NflIterIn) :
    ∀ st : NflMergeSt, nfl_run cfg st (xs ++ ys) =
      ((nfl_run cfg (nfl_run cfg st xs).1 ys).1,
       (nfl_run cfg st xs).2 ++ (nfl_run cfg (nfl_run cfg st xs).1 ys).2) := by
  induction xs with
  | nil =>
    intro st
    show nfl_run cfg st ys = _
    rw [show (nfl_run cfg st ([] : List NflIterIn)) = (st, []) from rfl]
    rw [List.nil_append]
  | cons it rest ih =>
    intro st
    show ((nfl_run cfg (nfl_iter cfg st it).1 (rest ++ ys)).1,
      (nfl_iter cfg st it).2 ++
      (nfl_run cfg (nfl_iter cfg st it).1 (rest ++ ys)).2) = _
    rw [ih (nfl_iter cfg st it).1]
    show (_, (nfl_iter cfg st it).2 ++ _) = _
    rw [← List.append_assoc]
    rfl

/-- With a snapshot present, a non-empty-ticker queued NFL tick emits
exactly one per-tick state — the full updated market table stamped with the
tick's own timestamp — keeps the snapshot and sets `last_emit` to the wall
reading. -/
theorem nfl_handle_tick_emits (cfg : NflMergeConfig) (st : NflMergeSt)
    (t : NflTick) (wall : ℚ) (sc : NflSnap)
    (hsc : st.latest_score = some sc) (ht : ¬ t.market_ticker = "") :
    (nfl_handle_tick cfg st t wall).2 =
      [⟨build_nfl_state_dict sc (nfl_handle_tick cfg st t wall).1.markets
         (some cfg.event_ticker) (some t.ts_iso), false⟩] ∧
    (nfl_handle_tick cfg st t wall).1.latest_score = some sc ∧
    (nfl_handle_tick cfg st t wall).1.last_emit = wall := by
  unfold nfl_handle_tick
  rw [if_neg ht]
  dsimp only
  rw [hsc]
  exact ⟨rfl, rfl, rfl⟩

/-! ### Claim C2 — no State before the first snapshot (code bug in NBA) -/

/-- Claim C2: gating of emissions on the first snapshot, per merger.  For
the NFL merger the claim holds in full: (i) no State is emitted before the
first snapshot has been received, however many ticks arrive first; (ii)
those ticks are absorbed into the per-instrument market table, and the
first State emitted once a snapshot arrives (triggered by the next tick)
carries the full current market table — absorbed values included — stamped
with the triggering tick's timestamp.  For the NBA merger only the silent
half survives: (iii) a pre-snapshot first-seen tick is absorbed into the
table and produces no output; but (iv) the NBA merger never emits any
State in any run — every path to its `yield` first raises `AttributeError`
on a `TypedDict` market entry — so the claim's "their field values appear
in the first State emitted after a snapshot arrives" never happens.  (v)
Concretely: on the spec's own scenario (pre-snapshot ask-0.10 tick,
snapshot, tick) the loop aborts with `AttributeError` at the `m.team` read
and emits nothing, and a tick carrying a price for an already-tracked
market aborts with `AttributeError` at the `m.last_prob` assignment even
before any snapshot. -/
theorem c2_pre_snapshot_gating :
    (∀ (cfg : NflMergeConfig) (st : NflMergeSt) (its : List NflIterIn),
      st.latest_score = none → (∀ it ∈ its, it.score_items = []) →
      (nfl_run cfg st its).2 = []) ∧
    (∀ (cfg : NflMergeConfig) (st : NflMergeSt) (its : List NflIterIn)
       (s : NflSnap) (t : NflTick) (wall now : ℚ),
      st.latest_score = none → (∀ it ∈ its, it.score_items = []) →
      ¬ t.market_ticker = "" →
      (nfl_run cfg st (its ++ [⟨[s], [(t, wall)], now⟩])).2.head? =
        some ⟨build_nfl_state_dict s
          (nfl_run cfg st (its ++ [⟨[s], [(t, wall)], now⟩])).1.markets
          (some cfg.event_ticker) (some t.ts_iso), false⟩) ∧
    (∀ (cfg : NbaMergeConfig) (st : NbaMergeSt) (t : NbaTick),
      st.error = none → st.latest_score = none →
      ¬ t.market_ticker = "" →
      st.markets.lookup t.market_ticker = none →
      nba_step cfg st (.tick t) =
        ({ st with markets :=
            alistSet st.markets t.market_ticker (nba_new_market t) }, [])) ∧
    (∀ (cfg : NbaMergeConfig) (st : NbaMergeSt) (events : List NbaEvent),
      (nba_run cfg st events).2 = []) ∧
    ((nba_run ⟨"g1", "BOS", "LAL"⟩ {}
        [NbaEvent.tick
           { ts_iso := 10, market_ticker := "KXNBA-BOS",
             yes_ask_prob := some (1/10) },
         NbaEvent.score ⟨"g1", "BOS", "LAL", 50, 42, 3, 5, 30,
            "IN_PROGRESS", 100⟩,
         NbaEvent.tick
           { ts_iso := 11, market_ticker := "KXNBA-BOS" }]).1.error
        = some (.attributeError "team") ∧
     (nba_run ⟨"g1", "BOS", "LAL"⟩ {}
        [NbaEvent.tick
           { ts_iso := 10, market_ticker := "KXNBA-BOS",
             yes_ask_prob := some (1/10) },
         NbaEvent.tick
           { ts_iso := 11, market_ticker := "KXNBA-BOS",
             price_prob := some (1/2) }]).1.error
        = some (.attributeError "last_prob")) := by
  refine ⟨?_, ?_, ?_, ?_, rfl, rfl⟩
  · exact fun cfg st its hst hits => (nfl_run_no_score cfg its st hst hits).1
  · intro cfg st its s t wall now hnone hsc ht
    rw [nfl_run_append cfg its [⟨[s], [(t, wall)], now⟩] st]
    rw [(nfl_run_no_score cfg its st hnone hsc).1, List.nil_append]
    generalize (nfl_run cfg st its).1 = st0
    obtain ⟨he, hl, hle⟩ := nfl_handle_tick_emits cfg
      { st0 with latest_score := some s } t wall s rfl ht
    simp only [nfl_run, nfl_iter, nfl_ticks_run, List.append_nil]
    rw [show ([s] : List NflSnap).getLast? = some s from rfl]
    dsimp only
    rw [hl]
    dsimp only
    by_cases hfire :
      (nfl_handle_tick cfg { st0 with latest_score := some s } t
        wall).1.last_emit + 1 ≤ now
    · rw [if_pos hfire, he]
      rfl
    · rw [if_neg hfire, he]
      rfl
  · intro cfg st t herr hnone ht hlook
    rw [nba_step_tick cfg st t herr]
    unfold nba_handle_tick
    rw [if_neg ht, hlook]
    dsimp only
    rw [hnone]
  · exact fun cfg st events => nba_run_never_emits cfg events st

/-- Witness for C2: the NFL version of the spec's scenario.  One
pre-snapshot iteration queues a tick with ask 0.10 (no emission), then an
iteration drains the first snapshot together with an all-absent tick: the
first emitted State is the per-tick State stamped with that tick's
timestamp and carrying the final market table. -/
theorem c2_pre_snapshot_gating_witness :
    (nfl_run ⟨"KXNFLGAME-X", "g2", "KC", "BUF"⟩ { last_emit := 0 }
      ([⟨[],
         [({ ts_iso := 10, market_ticker := "M1",
             yes_ask_prob := some (1/10) }, 10)],
         20⟩] ++
       [⟨[⟨"g2", "KC", "BUF", 21, 17, 4, 2, 60, some "KC", 2, 7, 85,
            "In Progress", 200, none⟩],
         [({ ts_iso := 30, market_ticker := "M1" }, 30)], 31⟩])).2.head? =
      some ⟨build_nfl_state_dict
        ⟨"g2", "KC", "BUF", 21, 17, 4, 2, 60, some "KC", 2, 7, 85,
          "In Progress", 200, none⟩
        (nfl_run ⟨"KXNFLGAME-X", "g2", "KC", "BUF"⟩ { last_emit := 0 }
          ([⟨[],
             [({ ts_iso := 10, market_ticker := "M1",
                 yes_ask_prob := some (1/10) }, 10)],
             20⟩] ++
           [⟨[⟨"g2", "KC", "BUF", 21, 17, 4, 2, 60, some "KC", 2, 7, 85,
                "In Progress", 200, none⟩],
             [({ ts_iso := 30, market_ticker := "M1" }, 30)],
             31⟩])).1.markets
        (some "KXNFLGAME-X") (some 30), false⟩ :=
  c2_pre_snapshot_gating.2.1 ⟨"KXNFLGAME-X", "g2", "KC", "BUF"⟩
    { last_emit := 0 }
    [⟨[],
      [({ ts_iso := 10, market_ticker := "M1",
          yes_ask_prob := some (1/10) }, 10)],
      20⟩]
    ⟨"g2", "KC", "BUF", 21, 17, 4, 2, 60, some "KC", 2, 7, 85,
      "In Progress", 200, none⟩
    { ts_iso := 30, market_ticker := "M1" } 30 31 rfl
    (by intro it hit
        rw [List.mem_singleton] at hit
        subst hit
        rfl)
    (by decide)

/-- Looking up the key just stored by `alistSet` returns the stored value. -/
theorem alistSet_lookup {α : Type} (l : List (String × α)) (k : String)
    (v : α) : (alistSet l k v).lookup k = some v := by
  unfold alistSet
  by_cases h : (l.lookup k).isSome
  · rw [if_pos h]
    induction l with
    | nil => exact absurd h (by simp)
    | cons hd tl ih =>
      cases hd with
      | mk k1 v1 =>
        cases hk : k1 == k with
        | true =>
          rw [List.map, hk, if_pos rfl]
          simp only [List.lookup, beq_self_eq_true]
        | false =>
          have h2 : (k == k1) = false := by
            rw [beq_eq_false_iff_ne] at hk ⊢
            exact fun e => hk e.symm
          have h3 : (tl.lookup k).isSome := by
            simp only [List.lookup, h2] at h
            exact h
          rw [List.map, hk, if_neg (by simp)]
          simp only [List.lookup, h2]
          exact ih h3
  · rw [if_neg h]
    induction l with
    | nil => simp [List.lookup]
    | cons hd tl ih =>
      cases hd with
      | mk k1 v1 =>
        cases hk : k == k1 with
        | true =>
          exfalso
          apply h
          simp [List.lookup, hk]
        | false =>
          have h3 : ¬ (tl.lookup k).isSome := by
            intro hs
            apply h
            simp [List.lookup, hk, hs]
          simp only [List.cons_append, List.lookup, hk]
          exact ih h3

/-- Side inference touches only the cached `team`/`side` classification. -/
theorem nfl_infer_side_fields (home_team away_team mt : String)
    (m : NflMarket) :
    (nfl_infer_side home_team away_team mt m).market_id = m.market_id ∧
    (nfl_infer_side home_team away_team mt m).price = m.price ∧
    (nfl_infer_side home_team away_team mt m).yes_bid_prob = m.yes_bid_prob ∧
    (nfl_infer_side home_team away_team mt m).yes_ask_prob = m.yes_ask_prob ∧
    (nfl_infer_side home_team away_team mt m).volume = m.volume ∧
    (nfl_infer_side home_team away_team mt m).open_interest
      = m.open_interest ∧
    (nfl_infer_side home_team away_team mt m).status = m.status := by
  unfold nfl_infer_side
  split
  · dsimp only
    split
    · exact ⟨rfl, rfl, rfl, rfl, rfl, rfl, rfl⟩
    · exact ⟨rfl, rfl, rfl, rfl, rfl, rfl, rfl⟩
  · exact ⟨rfl, rfl, rfl, rfl, rfl, rfl, rfl⟩

/-! ### Claim C4 — absent tick fields never overwrite (corrected) -/

/-- Claim C4 as amended: what "absent fields never overwrite" really means,
per merger.  In the NFL merger: (i) each of the six market fields (price,
bid, ask, volume, open interest, status) keeps its previous value whenever
the tick's corresponding field is absent; (ii) a tick with all fields
absent leaves all six market fields unchanged; (iii) at the full
tick-processing step the looked-up entry keeps all six fields — though the
cached `team`/`side` classification may still change (see the
counterexample).  In the NBA merger: (iv) an existing entry is never
modified at all — the update block raises `AttributeError` at its first
present field before any assignment lands, and an all-absent tick performs
no assignment — so every field trivially keeps its value, nothing is
emitted, and the loop stays alive exactly when every tick field is absent
and no snapshot has been received yet. -/
theorem c4_absent_fields_never_overwrite :
    (∀ (m : NflMarket) (t : NflTick),
      (t.price_prob = none → (nfl_apply_tick m t).price = m.price) ∧
      (t.yes_bid_prob = none →
        (nfl_apply_tick m t).yes_bid_prob = m.yes_bid_prob) ∧
      (t.yes_ask_prob = none →
        (nfl_apply_tick m t).yes_ask_prob = m.yes_ask_prob) ∧
      (t.volume = none → (nfl_apply_tick m t).volume = m.volume) ∧
      (t.open_interest = none →
        (nfl_apply_tick m t).open_interest = m.open_interest) ∧
      (t.status = none → (nfl_apply_tick m t).status = m.status)) ∧
    (∀ (m : NflMarket) (t : NflTick),
      t.price_prob = none → t.yes_bid_prob = none → t.yes_ask_prob = none →
      t.volume = none → t.open_interest = none → t.status = none →
      nfl_apply_tick m t = m) ∧
    (∀ (cfg : NflMergeConfig) (st : NflMergeSt) (t : NflTick) (wall : ℚ)
       (m : NflMarket),
      st.markets.lookup t.market_ticker = some m →
      ¬ t.market_ticker = "" →
      t.price_prob = none → t.yes_bid_prob = none → t.yes_ask_prob = none →
      t.volume = none → t.open_interest = none → t.status = none →
      ∃ m2 : NflMarket,
        (nfl_handle_tick cfg st t wall).1.markets.lookup t.market_ticker
          = some m2 ∧
        m2.market_id = m.market_id ∧ m2.price = m.price ∧
        m2.yes_bid_prob = m.yes_bid_prob ∧ m2.yes_ask_prob = m.yes_ask_prob ∧
        m2.volume = m.volume ∧ m2.open_interest = m.open_interest ∧
        m2.status = m.status) ∧
    (∀ (cfg : NbaMergeConfig) (st : NbaMergeSt) (t : NbaTick)
       (m : NbaMarket),
      st.error = none → st.markets.lookup t.market_ticker = some m →
      ¬ t.market_ticker = "" →
      (nba_step cfg st (.tick t)).1.markets = st.markets ∧
      (nba_step cfg st (.tick t)).2 = [] ∧
      ((nba_step cfg st (.tick t)).1.error = none ↔
        (nba_update_attr_error t = none ∧ st.latest_score = none))) := by
  refine ⟨?_, ?_, ?_, ?_⟩
  · intro m t
    refine ⟨?_, ?_, ?_, ?_, ?_, ?_⟩ <;>
      (intro h; simp only [nfl_apply_tick, h, patch])
  · intro m t h1 h2 h3 h4 h5 h6
    simp only [nfl_apply_tick, h1, h2, h3, h4, h5, h6, patch]
  · intro cfg st t wall m hlook ht h1 h2 h3 h4 h5 h6
    have happ : nfl_apply_tick m t = m := by
      simp only [nfl_apply_tick, h1, h2, h3, h4, h5, h6, patch]
    refine ⟨nfl_infer_side cfg.home_team cfg.away_team t.market_ticker m,
      ?_, ?_⟩
    · have hmk : (nfl_handle_tick cfg st t wall).1.markets =
          alistSet st.markets t.market_ticker
            (nfl_infer_side cfg.home_team cfg.away_team t.market_ticker m) := by
        unfold nfl_handle_tick
        rw [if_neg ht]
        dsimp only
        rw [hlook]
        dsimp only
        rw [happ]
        cases st.latest_score with
        | none => rfl
        | some sc => rfl
      rw [hmk]
      exact alistSet_lookup st.markets t.market_ticker _
    · obtain ⟨f1, f2, f3, f4, f5, f6, f7⟩ :=
        nfl_infer_side_fields cfg.home_team cfg.away_team t.market_ticker m
      exact ⟨f1, f2, f3, f4, f5, f6, f7⟩
  · intro cfg st t m herr hlook ht
    rw [nba_step_tick cfg st t herr]
    unfold nba_handle_tick
    rw [if_neg ht, hlook]
    dsimp only
    cases hat : nba_update_attr_error t with
    | some e =>
      refine ⟨rfl, rfl, ?_⟩
      simp
    | none =>
      cases hls : st.latest_score with
      | none => exact ⟨rfl, rfl, by simp [herr]⟩
      | some sc => exact ⟨rfl, rfl, by simp⟩

/-- Counterexample to C4 as stated: an all-absent tick applied to an
existing seeded entry whose team is not yet known does change the snapshot —
the side classification is inferred from the "-KC" suffix even though every
tick field is `None` — so the snapshot is not "entirely unchanged". -/
theorem c4_all_absent_tick_changes_entry :
    ((nfl_handle_tick ⟨"KXNFLGAME-X", "g2", "KC", "BUF"⟩
        { latest_score := none,
          markets := [("KXNFLGAME-X-KC",
            { market_id := "KXNFLGAME-X-KC",
              event_ticker := "KXNFLGAME-X" })],
          last_emit := 0 }
        { ts_iso := 1, market_ticker := "KXNFLGAME-X-KC" } 2).1.markets =
      [("KXNFLGAME-X-KC",
        { market_id := "KXNFLGAME-X-KC", event_ticker := "KXNFLGAME-X",
          team := some "KC", side := "home" })]) ∧
    ¬ ((nfl_handle_tick ⟨"KXNFLGAME-X", "g2", "KC", "BUF"⟩
        { latest_score := none,
          markets := [("KXNFLGAME-X-KC",
            { market_id := "KXNFLGAME-X-KC",
              event_ticker := "KXNFLGAME-X" })],
          last_emit := 0 }
        { ts_iso := 1, market_ticker := "KXNFLGAME-X-KC" } 2).1.markets =
      [("KXNFLGAME-X-KC",
        { market_id := "KXNFLGAME-X-KC",
          event_ticker := "KXNFLGAME-X" })]) := by
  constructor
  · decide
  · decide

/-- Witness for C4: the full-step conjunct applied to a concrete all-absent
tick on a tracked entry with a cached ask of 0.10. -/
theorem c4_absent_fields_never_overwrite_witness :
    ∃ m2 : NflMarket,
      (nfl_handle_tick ⟨"KXNFLGAME-X", "g2", "KC", "BUF"⟩
        { latest_score := none,
          markets := [("KXNFLGAME-X-KC",
            { market_id := "KXNFLGAME-X-KC", event_ticker := "KXNFLGAME-X",
              yes_ask_prob := some (1/10) })],
          last_emit := 0 }
        { ts_iso := 1, market_ticker := "KXNFLGAME-X-KC" } 2).1.markets.lookup
          "KXNFLGAME-X-KC" = some m2 ∧
      m2.market_id = "KXNFLGAME-X-KC" ∧
      m2.price = none ∧ m2.yes_bid_prob = none ∧
      m2.yes_ask_prob = some (1/10) ∧ m2.volume = none ∧
      m2.open_interest = none ∧ m2.status = none :=
  c4_absent_fields_never_overwrite.2.2.1 ⟨"KXNFLGAME-X", "g2", "KC", "BUF"⟩
    { latest_score := none,
      markets := [("KXNFLGAME-X-KC",
        { market_id := "KXNFLGAME-X-KC", event_ticker := "KXNFLGAME-X",
          yes_ask_prob := some (1/10) })],
      last_emit := 0 }
    { ts_iso := 1, market_ticker := "KXNFLGAME-X-KC" } 2
    { market_id := "KXNFLGAME-X-KC", event_ticker := "KXNFLGAME-X",
      yes_ask_prob := some (1/10) }
    (by simp [List.lookup]) (by decide) rfl rfl rfl rfl rfl rfl

/-- A tick-free iteration with a snapshot present: the iteration result is a
heartbeat exactly when the interval has elapsed. -/
theorem nfl_iter_no_ticks (cfg : NflMergeConfig) (st : NflMergeSt)
    (it : NflIterIn) (sc : NflSnap) (hsc : st.latest_score = some sc)
    (hticks : it.tick_items = []) :
    ∃ sc2 : NflSnap,
      nfl_iter cfg st it =
        (if st.last_emit + 1 ≤ it.now then
          ({ st with latest_score := some sc2, last_emit := it.now },
           [⟨build_nfl_state_dict sc2 st.markets (some cfg.event_ticker)
              (some it.now), true⟩])
         else ({ st with latest_score := some sc2 }, [])) := by
  cases hl : it.score_items.getLast? with
  | some s2 =>
    refine ⟨s2, ?_⟩
    unfold nfl_iter
    rw [hl, hticks]
    simp only [nfl_ticks_run]
    by_cases hfire : st.last_emit + 1 ≤ it.now
    · rw [if_pos hfire, if_pos hfire]
      rfl
    · rw [if_neg hfire, if_neg hfire]
  | none =>
    refine ⟨sc, ?_⟩
    obtain ⟨l, mk, le⟩ := st
    dsimp only at hsc
    subst hsc
    unfold nfl_iter
    rw [hl, hticks]
    simp only [nfl_ticks_run]
    by_cases hfire : le + 1 ≤ it.now
    · rw [if_pos hfire, if_pos hfire]
      rfl
    · rw [if_neg hfire, if_neg hfire]

/-- In a tick-free run with a snapshot present, every emission is a
heartbeat, consecutive heartbeat timestamps grow by at least the full
1-second interval, and each is at least one interval after the last
emission time at entry. -/
theorem nfl_run_quiet_heartbeats (cfg : NflMergeConfig)
    (its : List NflIterIn) :
    ∀ (st : NflMergeSt) (sc : NflSnap), st.latest_score = some sc →
    (∀ it ∈ its, it.tick_items = []) →
    ((∀ e ∈ (nfl_run cfg st its).2, e.via_heartbeat = true) ∧
     List.Chain' (fun a b => a + 1 ≤ b)
       (nfl_ems_ts (nfl_run cfg st its).2) ∧
     (∀ x ∈ nfl_ems_ts (nfl_run cfg st its).2, st.last_emit + 1 ≤ x)) := by
  induction its with
  | nil =>
    intro st sc hsc hq
    exact ⟨by simp [nfl_run], by simp [nfl_run, nfl_ems_ts],
      by simp [nfl_run, nfl_ems_ts]⟩
  | cons it rest ih =>
    intro st sc hsc hq
    have hti : it.tick_items = [] := hq _ (List.mem_cons_self _ _)
    obtain ⟨sc2, hiter⟩ := nfl_iter_no_ticks cfg st it sc hsc hti
    have hqr : ∀ x ∈ rest, x.tick_items = [] :=
      fun x hx => hq x (List.mem_cons_of_mem _ hx)
    by_cases hfire : st.last_emit + 1 ≤ it.now
    · rw [if_pos hfire] at hiter
      have hrun : nfl_run cfg st (it :: rest) =
          ((nfl_run cfg
            { st with
              latest_score := some sc2,
              last_emit := it.now } rest).1,
           [⟨build_nfl_state_dict sc2 st.markets (some cfg.event_ticker)
              (some it.now), true⟩] ++
           (nfl_run cfg
            { st with
              latest_score := some sc2,
              last_emit := it.now } rest).2) := by
        show ((nfl_run cfg (nfl_iter cfg st it).1 rest).1,
          (nfl_iter cfg st it).2 ++
          (nfl_run cfg (nfl_iter cfg st it).1 rest).2) = _
        rw [hiter]
      obtain ⟨ia, ib, ic⟩ := ih
        { st with
          latest_score := some sc2,
          last_emit := it.now } sc2 rfl hqr
      rw [hrun]
      refine ⟨?_, ?_, ?_⟩
      · intro e he
        rcases List.mem_append.mp he with h | h
        · rw [List.mem_singleton] at h
          subst h
          rfl
        · exact ia e h
      · show List.Chain' _ (List.map _ (_ ++ _))
        rw [List.map_append]
        show List.Chain' _ (it.now :: _)
        rw [List.chain'_cons']
        constructor
        · intro b hb
          have hbmem : b ∈ nfl_ems_ts (nfl_run cfg
              { st with
                latest_score := some sc2,
                last_emit := it.now }
              rest).2 := List.mem_of_mem_head? hb
          have := ic b hbmem
          simpa using this
        · exact ib
      · intro x hx
        show st.last_emit + 1 ≤ x
        rw [nfl_ems_ts, List.map_append] at hx
        rcases List.mem_append.mp hx with h | h
        · simp only [List.map_cons, List.map_nil, List.mem_singleton] at h
          subst h
          exact hfire
        · have := ic x h
          simp only at this
          calc st.last_emit + 1 ≤ it.now := hfire
            _ ≤ it.now + 1 := by linarith
            _ ≤ x := this
    · rw [if_neg hfire] at hiter
      have hrun : nfl_run cfg st (it :: rest) =
          ((nfl_run cfg ({ st with latest_score := some sc2 }) rest).1,
           [] ++
           (nfl_run cfg ({ st with latest_score := some sc2 }) rest).2) := by
        show ((nfl_run cfg (nfl_iter cfg st it).1 rest).1,
          (nfl_iter cfg st it).2 ++
          (nfl_run cfg (nfl_iter cfg st it).1 rest).2) = _
        rw [hiter]
      obtain ⟨ia, ib, ic⟩ := ih { st with latest_score := some sc2 } sc2 rfl hqr
      rw [hrun]
      exact ⟨fun e he => ia e (by simpa using he),
        by simpa using ib,
        fun x hx => ic x (by simpa [nfl_ems_ts] using hx)⟩

/-! ### Claim C7 — heartbeat emission (corrected) -/

/-- Claim C7 as amended: the clock-driven NFL merger is the one that emits
heartbeats.  (i) In any quiet iteration (snapshot present, no queued score
or tick items), exactly one heartbeat State is emitted iff at least the
1-second interval has elapsed since the last emission, and it is stamped
with the current wall-clock reading `it.now` — not with any tick or
scoreboard time. (ii) Over any tick-free run, consecutive heartbeat
timestamps grow by at least the full interval, hence are strictly
increasing. (iii) The tick-driven NBA merger emits no heartbeats at all: a
run containing no tick events emits nothing, however long it is. -/
theorem c7_heartbeat_cadence :
    (∀ (cfg : NflMergeConfig) (st : NflMergeSt) (it : NflIterIn)
       (sc : NflSnap),
      st.latest_score = some sc → it.score_items = [] →
      it.tick_items = [] →
      (nfl_iter cfg st it).2 =
        (if st.last_emit + 1 ≤ it.now then
          [⟨build_nfl_state_dict sc st.markets (some cfg.event_ticker)
             (some it.now), true⟩]
         else [])) ∧
    (∀ (cfg : NflMergeConfig) (its : List NflIterIn) (st : NflMergeSt)
       (sc : NflSnap),
      st.latest_score = some sc → (∀ it ∈ its, it.tick_items = []) →
      (∀ e ∈ (nfl_run cfg st its).2, e.via_heartbeat = true) ∧
      List.Chain' (fun a b => a + 1 ≤ b)
        (nfl_ems_ts (nfl_run cfg st its).2) ∧
      List.Chain' (fun a b => a < b) (nfl_ems_ts (nfl_run cfg st its).2)) ∧
    (∀ (cfg : NbaMergeConfig) (st : NbaMergeSt) (events : List NbaEvent),
      (∀ e ∈ events, is_score_event e = true) →
      (nba_run cfg st events).2 = []) := by
  refine ⟨?_, ?_, ?_⟩
  · intro cfg st it sc hsc hscore hticks
    have h : nfl_iter cfg st it =
        (if st.last_emit + 1 ≤ it.now then
          ({ st with last_emit := it.now },
           [⟨build_nfl_state_dict sc st.markets (some cfg.event_ticker)
              (some it.now), true⟩])
         else (st, [])) := by
      unfold nfl_iter
      rw [hscore, hticks]
      simp only [nfl_ticks_run, List.getLast?]
      rw [hsc]
      dsimp only
      by_cases hfire : st.last_emit + 1 ≤ it.now
      · rw [if_pos hfire, if_pos hfire]
        rfl
      · rw [if_neg hfire, if_neg hfire]
    rw [h]
    by_cases hfire : st.last_emit + 1 ≤ it.now
    · rw [if_pos hfire, if_pos hfire]
    · rw [if_neg hfire, if_neg hfire]
  · intro cfg its st sc hsc hq
    obtain ⟨ha, hb, hc⟩ := nfl_run_quiet_heartbeats cfg its st sc hsc hq
    refine ⟨ha, hb, ?_⟩
    exact List.Chain'.imp (fun a b hab => by linarith) hb
  · exact fun cfg st events hev => nba_run_scores_only cfg events st hev

/-- Counterexample to C7 as stated: the NBA merger, after receiving a
snapshot and then no ticks at all (an arbitrarily long quiet period), emits
nothing — its emissions are a function of arriving events only, with no
clock-driven branch — whereas the claim requires one wall-clock-stamped
heartbeat State per elapsed interval from "the state merger". -/
theorem c7_nba_never_heartbeats_counterexample :
    (nba_run ⟨"g1", "BOS", "LAL"⟩ {}
      [NbaEvent.score
        ⟨"g1", "BOS", "LAL", 50, 42, 3, 5, 30, "IN_PROGRESS", 100⟩]).2
      = [] := rfl

/-- Witness for C7: one quiet NFL iteration at wall-clock 2 with
`last_emit = 0` fires exactly one heartbeat stamped 2. -/
theorem c7_heartbeat_cadence_witness :
    (nfl_iter ⟨"KXNFLGAME-X", "g2", "KC", "BUF"⟩
      { latest_score := some ⟨"g2", "KC", "BUF", 21, 17, 4, 2, 60, some "KC",
          2, 7, 85, "In Progress", 200, none⟩,
        markets := [],
        last_emit := 0 }
      ⟨[], [], 2⟩).2 =
      (if (0 : ℚ) + 1 ≤ 2 then
        [⟨build_nfl_state_dict
            ⟨"g2", "KC", "BUF", 21, 17, 4, 2, 60, some "KC", 2, 7, 85,
              "In Progress", 200, none⟩
            [] (some "KXNFLGAME-X") (some 2), true⟩]
       else []) :=
  c7_heartbeat_cadence.1 ⟨"KXNFLGAME-X", "g2", "KC", "BUF"⟩
    { latest_score := some ⟨"g2", "KC", "BUF", 21, 17, 4, 2, 60, some "KC",
        2, 7, 85, "In Progress", 200, none⟩,
      markets := [],
      last_emit := 0 }
    ⟨[], [], 2⟩
    ⟨"g2", "KC", "BUF", 21, 17, 4, 2, 60, some "KC", 2, 7, 85,
      "In Progress", 200, none⟩ rfl rfl rfl

/-- An NFL tick emits either nothing or one state stamped with the tick's
own timestamp. -/
theorem nfl_handle_tick_ems_shape (cfg : NflMergeConfig) (st : NflMergeSt)
    (t : NflTick) (wall : ℚ) :
    (nfl_handle_tick cfg st t wall).2 = [] ∨
    ∃ em : NflEmission, (nfl_handle_tick cfg st t wall).2 = [em] ∧
      em.state.timestamp = t.ts_iso := by
  unfold nfl_handle_tick
  by_cases ht : t.market_ticker = ""
  · rw [if_pos ht]
    exact Or.inl rfl
  · rw [if_neg ht]
    dsimp only
    cases st.latest_score with
    | none => exact Or.inl rfl
    | some sc => exact Or.inr ⟨_, rfl, rfl⟩

/-- When ticks are stamped at their arrival wall clock, the per-tick
emission timestamps form a sublist of the wall-clock readings. -/
theorem nfl_ticks_run_ems_sublist (cfg : NflMergeConfig)
    (ticks : List (NflTick × ℚ)) :
    ∀ st : NflMergeSt,
    (∀ tw ∈ ticks, (tw : NflTick × ℚ).1.ts_iso = tw.2) →
    (nfl_ems_ts (nfl_ticks_run cfg st ticks).2).Sublist
      (ticks.map Prod.snd) := by
  induction ticks with
  | nil => exact fun st _ => List.Sublist.refl _
  | cons tw rest ih =>
    intro st hts
    have hrest : ∀ x ∈ rest, (x : NflTick × ℚ).1.ts_iso = x.2 :=
      fun x hx => hts x (List.mem_cons_of_mem _ hx)
    show (nfl_ems_ts ((nfl_handle_tick cfg st tw.1 tw.2).2 ++
      (nfl_ticks_run cfg (nfl_handle_tick cfg st tw.1 tw.2).1 rest).2)).Sublist
      (tw.2 :: rest.map Prod.snd)
    rcases nfl_handle_tick_ems_shape cfg st tw.1 tw.2 with h | ⟨em, h, hets⟩
    · rw [h, List.nil_append]
      exact List.Sublist.cons _ (ih _ hrest)
    · rw [h]
      simp only [nfl_ems_ts, List.map_append, List.map_cons, List.map_nil,
        List.singleton_append]
      rw [hets, hts tw (List.mem_cons_self _ _)]
      exact List.Sublist.cons₂ _ (ih _ hrest)

/-- One iteration's emission timestamps form a sublist of that iteration's
wall-clock readings. -/
theorem nfl_iter_ems_sublist (cfg : NflMergeConfig) (st : NflMergeSt)
    (it : NflIterIn)
    (hts : ∀ tw ∈ it.tick_items, (tw : NflTick × ℚ).1.ts_iso = tw.2) :
    (nfl_ems_ts (nfl_iter cfg st it).2).Sublist (nfl_iter_stamps it) := by
  have core : ∀ st1 : NflMergeSt,
      (nfl_ems_ts
        (match (nfl_ticks_run cfg st1 it.tick_items).1.latest_score with
         | some sc =>
           if (nfl_ticks_run cfg st1 it.tick_items).1.last_emit + 1 ≤ it.now
           then
             ({ (nfl_ticks_run cfg st1 it.tick_items).1 with
                last_emit := it.now },
              (nfl_ticks_run cfg st1 it.tick_items).2 ++
              ([{ state := build_nfl_state_dict sc
                    (nfl_ticks_run cfg st1 it.tick_items).1.markets
                    (some cfg.event_ticker) (some it.now),
                  via_heartbeat := true }] : List NflEmission))
           else ((nfl_ticks_run cfg st1 it.tick_items).1,
             (nfl_ticks_run cfg st1 it.tick_items).2)
         | none => ((nfl_ticks_run cfg st1 it.tick_items).1,
             (nfl_ticks_run cfg st1 it.tick_items).2)).2).Sublist
        (nfl_iter_stamps it) := by
    intro st1
    have sub1 := nfl_ticks_run_ems_sublist cfg it.tick_items st1 hts
    cases (nfl_ticks_run cfg st1 it.tick_items).1.latest_score with
    | none =>
      exact sub1.trans (List.sublist_append_left _ _)
    | some sc =>
      dsimp only
      by_cases hfire :
        (nfl_ticks_run cfg st1 it.tick_items).1.last_emit + 1 ≤ it.now
      · rw [if_pos hfire]
        show (nfl_ems_ts ((nfl_ticks_run cfg st1 it.tick_items).2 ++
          ([{ state := build_nfl_state_dict sc
                (nfl_ticks_run cfg st1 it.tick_items).1.markets
                (some cfg.event_ticker) (some it.now),
              via_heartbeat := true }] : List NflEmission))).Sublist
          (it.tick_items.map Prod.snd ++ [it.now])
        simp only [nfl_ems_ts, List.map_append, List.map_cons, List.map_nil]
        exact List.Sublist.append sub1 (List.Sublist.refl _)
      · rw [if_neg hfire]
        exact sub1.trans (List.sublist_append_left _ _)
  cases hl : it.score_items.getLast? with
  | none =>
    unfold nfl_iter
    rw [hl]
    exact core st
  | some s =>
    unfold nfl_iter
    rw [hl]
    exact core { st with latest_score := some s }

/-- Run-level sublist: all emission timestamps, in order, form a sublist of
all wall-clock readings, in order. -/
theorem nfl_run_ems_sublist (cfg : NflMergeConfig) (its : List NflIterIn) :
    ∀ st : NflMergeSt, TicksStampedAtWall its →
    (nfl_ems_ts (nfl_run cfg st its).2).Sublist (nfl_stamps its) := by
  induction its with
  | nil => exact fun st _ => List.Sublist.refl _
  | cons it rest ih =>
    intro st hts
    have h1 : ∀ tw ∈ it.tick_items, (tw : NflTick × ℚ).1.ts_iso = tw.2 :=
      hts it (List.mem_cons_self _ _)
    have h2 : TicksStampedAtWall rest :=
      fun x hx tw htw => hts x (List.mem_cons_of_mem _ hx) tw htw
    show (nfl_ems_ts ((nfl_iter cfg st it).2 ++
      (nfl_run cfg (nfl_iter cfg st it).1 rest).2)).Sublist
      (nfl_iter_stamps it ++ nfl_stamps rest)
    simp only [nfl_ems_ts, List.map_append]
    exact List.Sublist.append (nfl_iter_ems_sublist cfg st it h1) (ih _ h2)

/-! ### Claim C9 — emitted timestamps (corrected) -/

/-- Claim C9 as amended: emitted timestamps are non-decreasing *provided
the stamping sources are*.  For the NFL merger — the only merger that
emits at all — every emitted State is stamped with either its triggering
tick's source timestamp or a heartbeat wall-clock reading, and the
emission stamps form a sublist of the wall-clock readings in processing
order; hence if every queued tick carries its arrival wall-clock reading
as its timestamp and the wall-clock readings are non-decreasing, emissions
are non-decreasing.  The code does not enforce this for out-of-order
source timestamps (see the counterexample).  The NBA merger emits no
States whatsoever (it raises `AttributeError` before every `yield`), so
its emitted sequence is vacuously non-decreasing. -/
theorem c9_timestamps_nondecreasing_under_ordered_stamps :
    (∀ (cfg : NflMergeConfig) (st : NflMergeSt) (its : List NflIterIn),
      TicksStampedAtWall its →
      List.Pairwise (fun a b : ℚ => a ≤ b) (nfl_stamps its) →
      List.Pairwise (fun a b : ℚ => a ≤ b)
        (nfl_ems_ts (nfl_run cfg st its).2)) ∧
    (∀ (cfg : NbaMergeConfig) (st : NbaMergeSt) (events : List NbaEvent),
      (nba_run cfg st events).2 = []) := by
  constructor
  · intro cfg st its hts hsorted
    exact List.Pairwise.sublist (nfl_run_ems_sublist cfg its st hts) hsorted
  · exact fun cfg st events => nba_run_never_emits cfg events st

/-- Counterexample to C9 as stated: one NFL iteration drains a snapshot and
two ticks whose source timestamps arrive out of order (10 then 5); the
merger emits immediately per tick, stamping each State with the tick's own
timestamp, so the run emits timestamps [10, 5] — decreasing. -/
theorem c9_out_of_order_ticks_counterexample :
    nfl_ems_ts (nfl_run ⟨"KXNFLGAME-X", "g2", "KC", "BUF"⟩
      { last_emit := 0 }
      [⟨[⟨"g2", "KC", "BUF", 21, 17, 4, 2, 60, some "KC", 2, 7, 85,
          "In Progress", 200, none⟩],
        [({ ts_iso := 10, market_ticker := "M1",
            price_prob := some (3/10) }, 1/2),
         ({ ts_iso := 5, market_ticker := "M1",
            price_prob := some (3/10) }, 3/5)],
        (7/10 : ℚ)⟩]).2 = [10, 5] ∧
    ¬ List.Chain' (fun a b : ℚ => a ≤ b) [(10 : ℚ), 5] := by
  constructor
  · have hsplit : py_split_hyphen "M1" = ["M1"] := by decide
    have hne : ¬ ("M1" : String) = "" := by decide
    have hlast : ([⟨"g2", "KC", "BUF", 21, 17, 4, 2, 60, some "KC", 2, 7, 85,
        "In Progress", 200, none⟩] : List NflSnap).getLast? =
        some ⟨"g2", "KC", "BUF", 21, 17, 4, 2, 60, some "KC", 2, 7, 85,
          "In Progress", 200, none⟩ := rfl
    norm_num [nfl_run, nfl_iter, nfl_ticks_run, nfl_handle_tick,
      nfl_new_market, nfl_apply_tick, nfl_infer_side, hsplit, hne, hlast,
      alistSet, List.lookup, build_nfl_state_dict, nfl_ems_ts, patch]
  · rw [List.chain'_cons]
    intro h
    have := h.1
    norm_num at this

/-- Witness for C9: one NFL iteration draining a snapshot together with two
in-order wall-stamped ticks (readings 1/2 then 3/5, heartbeat check at 1)
yields non-decreasing emission timestamps. -/
theorem c9_timestamps_nondecreasing_witness :
    List.Pairwise (fun a b : ℚ => a ≤ b)
      (nfl_ems_ts (nfl_run ⟨"KXNFLGAME-X", "g2", "KC", "BUF"⟩
        { last_emit := 0 }
        [⟨[⟨"g2", "KC", "BUF", 21, 17, 4, 2, 60, some "KC", 2, 7, 85,
            "In Progress", 200, none⟩],
          [({ ts_iso := 1/2, market_ticker := "M1" }, 1/2),
           ({ ts_iso := 3/5, market_ticker := "M1" }, 3/5)],
          (1 : ℚ)⟩]).2) :=
  c9_timestamps_nondecreasing_under_ordered_stamps.1
    ⟨"KXNFLGAME-X", "g2", "KC", "BUF"⟩ { last_emit := 0 }
    [⟨[⟨"g2", "KC", "BUF", 21, 17, 4, 2, 60, some "KC", 2, 7, 85,
        "In Progress", 200, none⟩],
      [({ ts_iso := 1/2, market_ticker := "M1" }, 1/2),
       ({ ts_iso := 3/5, market_ticker := "M1" }, 3/5)],
      (1 : ℚ)⟩]
    (by intro it hit tw htw
        rw [List.mem_singleton] at hit
        subst hit
        rcases List.mem_cons.mp htw with h | h
        · subst h
          rfl
        · rw [List.mem_singleton] at h
          subst h
          rfl)
    (by norm_num [nfl_stamps, nfl_iter_stamps, List.pairwise_cons,
          List.mem_cons, List.mem_singleton])

/-! ### Claim C8 — strategy errors (corrected) -/

/-- A raised exception in any member strategy propagates out of the whole
`CompositeStrategy.on_state` call. -/
theorem composite_error_propagates (S Pf : Type) (s : S) (pf : Pf) :
    ∀ strategies : List (NamedStrategy S Pf),
    (∃ strat ∈ strategies, ∃ e, strat.on_state s pf = .error e) →
    ∃ e2, composite_on_state strategies s pf = .error e2 := by
  intro strategies
  induction strategies with
  | nil =>
    rintro ⟨strat, hmem, _⟩
    cases hmem
  | cons hd tl ih =>
    rintro ⟨strat, hmem, e, herr⟩
    rcases List.mem_cons.mp hmem with rfl | hmem2
    · refine ⟨e, ?_⟩
      show (match strat.on_state s pf with
        | .error e => .error e
        | .ok intents =>
          match composite_on_state tl s pf with
          | .error e => .error e
          | .ok tail =>
            .ok (intents.map (fun i => (⟨strat.name, i⟩ : TaggedIntent))
              ++ tail)) = Except.error e
      rw [herr]
    · obtain ⟨e2, he2⟩ := ih ⟨strat, hmem2, e, herr⟩
      cases hh : hd.on_state s pf with
      | error e3 =>
        refine ⟨e3, ?_⟩
        show (match hd.on_state s pf with
          | .error e => .error e
          | .ok intents =>
            match composite_on_state tl s pf with
            | .error e => .error e
            | .ok tail =>
              .ok (intents.map (fun i => (⟨hd.name, i⟩ : TaggedIntent))
                ++ tail)) = Except.error e3
        rw [hh]
      | ok l =>
        refine ⟨e2, ?_⟩
        show (match hd.on_state s pf with
          | .error e => .error e
          | .ok intents =>
            match composite_on_state tl s pf with
            | .error e => .error e
            | .ok tail =>
              .ok (intents.map (fun i => (⟨hd.name, i⟩ : TaggedIntent))
                ++ tail)) = Except.error e2
        rw [hh, he2]

/-- Claim C8 as amended: if any member strategy raises on a State,
`CompositeStrategy.on_state` raises for the whole State (there is no
per-strategy try/except in the loop); `LiveEngine.run` catches the exception
at whole-cycle granularity, so no intents at all — not even those of
well-behaved members — are forwarded for that State, while subsequent States
are still processed normally. -/
theorem c8_strategy_error_aborts_whole_cycle :
    (∀ (S Pf : Type) (strategies : List (NamedStrategy S Pf)) (s : S)
       (pf : Pf),
      (∃ strat ∈ strategies, ∃ e, strat.on_state s pf = .error e) →
      ∃ e2, composite_on_state strategies s pf = .error e2) ∧
    (∀ (B S Pf : Type) (broker_view : B → Pf)
       (broker_execute : B → TaggedIntent → S → B)
       (on_state : S → Pf → Except String (List TaggedIntent)) (b : B)
       (s : S) (rest : List S),
      (∃ e, on_state s (broker_view b) = .error e) →
      live_engine_run broker_view broker_execute on_state b (s :: rest) =
        live_engine_run broker_view broker_execute on_state b rest) := by
  constructor
  · intro S Pf strategies s pf h
    exact composite_error_propagates S Pf s pf strategies h
  · rintro B S Pf broker_view broker_execute on_state b s rest ⟨e, he⟩
    show live_engine_run broker_view broker_execute on_state
      (match on_state s (broker_view b) with
       | .error _ => b
       | .ok intents =>
         intents.foldl (fun acc i => broker_execute acc i s) b) rest = _
    rw [he]

/-- Counterexample to C8 as stated: strategy "A" produces one intent and
strategy "B" raises; `composite_on_state` raises for the whole State, and
the engine forwards nothing to the broker for that State — even though "A"
alone would have produced `[⟨"A", intent⟩]`. -/
theorem c8_one_bad_strategy_discards_cycle_counterexample :
    (composite_on_state
      ([⟨"A", fun _ _ => .ok [⟨"M", "open", 5, none⟩]⟩,
        ⟨"B", fun _ _ => .error "boom"⟩] :
        List (NamedStrategy Unit Unit)) () () = .error "boom") ∧
    (live_engine_run (fun _ : List TaggedIntent => ())
      (fun acc i _ => acc ++ [i])
      (composite_on_state
        ([⟨"A", fun _ _ => .ok [⟨"M", "open", 5, none⟩]⟩,
          ⟨"B", fun _ _ => .error "boom"⟩] :
          List (NamedStrategy Unit Unit)))
      [] [()] = []) ∧
    (composite_on_state
      ([⟨"A", fun _ _ => .ok [⟨"M", "open", 5, none⟩]⟩] :
        List (NamedStrategy Unit Unit)) () () =
      .ok [⟨"A", ⟨"M", "open", 5, none⟩⟩]) :=
  ⟨rfl, rfl, rfl⟩

/-- Witness for C8: with the same failing composite, the engine run over two
States equals the run over the last State alone — the failing cycle is
skipped whole and processing continues. -/
theorem c8_strategy_error_aborts_whole_cycle_witness :
    live_engine_run (fun _ : List TaggedIntent => ())
      (fun acc i _ => acc ++ [i])
      (composite_on_state
        ([⟨"A", fun _ _ => .ok [⟨"M", "open", 5, none⟩]⟩,
          ⟨"B", fun _ _ => .error "boom"⟩] :
          List (NamedStrategy Unit Unit)))
      [] [(), ()] =
    live_engine_run (fun _ : List TaggedIntent => ())
      (fun acc i _ => acc ++ [i])
      (composite_on_state
        ([⟨"A", fun _ _ => .ok [⟨"M", "open", 5, none⟩]⟩,
          ⟨"B", fun _ _ => .error "boom"⟩] :
          List (NamedStrategy Unit Unit)))
      [] [()] :=
  c8_strategy_error_aborts_whole_cycle.2 (List TaggedIntent) Unit Unit
    (fun _ => ()) (fun acc i _ => acc ++ [i])
    (composite_on_state
      ([⟨"A", fun _ _ => .ok [⟨"M", "open", 5, none⟩]⟩,
        ⟨"B", fun _ _ => .error "boom"⟩] :
        List (NamedStrategy Unit Unit)))
    [] () [()] ⟨"boom", rfl⟩
